import Mathlib

set_option maxRecDepth 10000

/-!
Shallow embedding of the allbridge master contract (Solana program) for
specification checking.

Sources embedded:
  src/src/processor.rs  -- the four instruction processors and seed checks
  src/src/state.rs      -- record types and their sizes
  src/src/instruction.rs-- the borsh wire format of the instruction enum
  src/src/utils.rs      -- str_to_chain_id / chain_id_to_str codec

Modelling conventions:
  - u64 counters and amounts are modelled as Nat.  Every counter in the
    program only ever grows by 1 per instruction, so 2 ^ 64 wraparound is
    unreachable in any execution of realistic length and no claim hinges
    on it.
  - Byte strings are List Nat (each entry a byte value).
  - Pubkey is a free inductive: create_with_seed and find_program_address
    are modelled as injective constructors, which encodes the standard
    collision-resistance assumption on the underlying SHA-256 derivation.
    The 32 zero bytes key (Pubkey.key 0) doubles as the system program id,
    as it does on Solana.
  - Account data is modelled semantically: a byte buffer is its length
    plus a tagged value (zero-filled, or one serialized record).  Borsh
    try_from_slice requires exact length and succeeds on a zero-filled
    buffer of the right size, yielding the zero-valued record; all record
    sizes in play are pairwise distinct, so cross-type parses fail exactly
    when the lengths differ.
  - Failures thread the partially mutated state (EStateM style), so that
    the host transaction boundary, which restores the pre-state on error,
    is a separate explicit wrapper.
-/

/-- Error kinds of solana_program ProgramError that the embedded code can
produce.  System program errors surfaced through CPI are custom codes:
custom 0 is AccountAlreadyInUse, custom 1 is ResultWithNegativeLamports
(insufficient funds), custom 5 is AddressWithSeedMismatch. -/
inductive ProgramError where
  | custom (code : Nat)
  | invalidArgument
  | invalidInstructionData
  | invalidAccountData
  | insufficientFunds
  | missingRequiredSignature
  | accountAlreadyInitialized
  | uninitializedAccount
  | notEnoughAccountKeys
  | maxSeedLengthExceeded
  | invalidSeeds
  | borshIoError
  | accountNotRentExempt
deriving DecidableEq, Repr

deriving instance DecidableEq for Except

/-- SystemError AccountAlreadyInUse as seen by the caller of a CPI. -/
def accountAlreadyInUseErr : ProgramError := .custom 0

/-- SystemError ResultWithNegativeLamports as seen by the caller of a CPI. -/
def negativeLamportsErr : ProgramError := .custom 1

/-- Addresses.  key n are ordinary keys (wallets, the bridge account);
createdWithSeed mirrors Pubkey create_with_seed; pdaOfKey mirrors
find_program_address over the 32 bytes of a pubkey (used for the bridge
authority); pdaOfBytes mirrors find_program_address over a raw 32 byte
user address (used for the user authorities).  Constructors are distinct
and injective, encoding collision resistance of the hash derivation. -/
inductive Pubkey where
  | key (n : Nat)
  | createdWithSeed (base : Pubkey) (seed : List Char) (owner : Pubkey)
  | pdaOfKey (k : Pubkey) (programId : Pubkey)
  | pdaOfBytes (addr : List Nat) (programId : Pubkey)
deriving DecidableEq, Repr

/-- The all-zero pubkey, which is also the system program id. -/
def zeroPubkey : Pubkey := .key 0

/- ---------------------------------------------------------------------
UTF-8 codec, mirroring std str from_utf8 and String as_bytes.
--------------------------------------------------------------------- -/

/-- UTF-8 encoding of one scalar value (Char invariants guarantee the
codepoint is valid). -/
def utf8EncodeChar (c : Char) : List Nat :=
  let n := c.toNat
  if n < 0x80 then [n]
  else if n < 0x800 then [0xC0 + n / 64, 0x80 + n % 64]
  else if n < 0x10000 then [0xE0 + n / 4096, 0x80 + n / 64 % 64, 0x80 + n % 64]
  else [0xF0 + n / 262144, 0x80 + n / 4096 % 64, 0x80 + n / 64 % 64, 0x80 + n % 64]

/-- UTF-8 encoding of a character list (String as_bytes). -/
def utf8EncodeList (l : List Char) : List Nat :=
  l.flatMap utf8EncodeChar

/-- Byte length of the UTF-8 encoding. -/
def utf8Len (l : List Char) : Nat := (utf8EncodeList l).length

/-- Decode one UTF-8 scalar from the front of a byte list, rejecting
continuation bytes, overlong forms, surrogates and out of range values,
exactly as std str from_utf8 does. -/
def utf8DecodeOne (l : List Nat) : Option (Char × List Nat) :=
  match l with
  | [] => none
  | b :: rest =>
    if b < 0x80 then some (Char.ofNat b, rest)
    else if b < 0xC2 then none
    else if b < 0xE0 then
      match rest with
      | b1 :: rest1 =>
        if 0x80 ≤ b1 ∧ b1 < 0xC0 then
          some (Char.ofNat ((b - 0xC0) * 64 + (b1 - 0x80)), rest1)
        else none
      | [] => none
    else if b < 0xF0 then
      match rest with
      | b1 :: b2 :: rest2 =>
        let cp := (b - 0xE0) * 4096 + (b1 - 0x80) * 64 + (b2 - 0x80)
        if 0x80 ≤ b1 ∧ b1 < 0xC0 ∧ 0x80 ≤ b2 ∧ b2 < 0xC0 ∧ 0x800 ≤ cp ∧
            ¬ (0xD800 ≤ cp ∧ cp < 0xE000) then
          some (Char.ofNat cp, rest2)
        else none
      | _ => none
    else if b < 0xF5 then
      match rest with
      | b1 :: b2 :: b3 :: rest3 =>
        let cp := (b - 0xF0) * 262144 + (b1 - 0x80) * 4096 + (b2 - 0x80) * 64 + (b3 - 0x80)
        if 0x80 ≤ b1 ∧ b1 < 0xC0 ∧ 0x80 ≤ b2 ∧ b2 < 0xC0 ∧ 0x80 ≤ b3 ∧ b3 < 0xC0 ∧
            0x10000 ≤ cp ∧ cp < 0x110000 then
          some (Char.ofNat cp, rest3)
        else none
      | _ => none
    else none

theorem utf8DecodeOne_length {l : List Nat} {c : Char} {r : List Nat}
    (h : utf8DecodeOne l = some (c, r)) : r.length < l.length := by
  unfold utf8DecodeOne at h
  rcases l with _ | ⟨b, rest⟩
  · simp at h
  · simp only at h
    split at h
    · cases h; simp
    · split at h
      · cases h
      · split at h
        · rcases rest with _ | ⟨b1, rest1⟩
          · cases h
          · simp only at h
            split at h
            · cases h; simp; omega
            · cases h
        · split at h
          · rcases rest with _ | ⟨b1, _ | ⟨b2, rest2⟩⟩ <;> simp only at h
            · cases h
            · cases h
            · split at h
              · cases h; simp; omega
              · cases h
          · split at h
            · rcases rest with _ | ⟨b1, _ | ⟨b2, _ | ⟨b3, rest3⟩⟩⟩ <;> simp only at h
              · cases h
              · cases h
              · cases h
              · split at h
                · cases h; simp; omega
                · cases h
            · cases h

/-- Fueled decoding loop (structural recursion so that the kernel can
evaluate it; utf8DecodeOne consumes at least one byte per step, so fuel
equal to the byte count always suffices, see utf8DecodeGo_mono). -/
def utf8DecodeGo : Nat → List Nat → Option (List Char)
  | _, [] => some []
  | 0, _ :: _ => none
  | fuel + 1, b :: rest =>
    match utf8DecodeOne (b :: rest) with
    | none => none
    | some (c, r) => (utf8DecodeGo fuel r).map (c :: ·)

theorem utf8DecodeGo_mono {f1 : Nat} : ∀ {l : List Nat} {f2 : Nat},
    l.length ≤ f1 → l.length ≤ f2 → utf8DecodeGo f1 l = utf8DecodeGo f2 l := by
  induction f1 with
  | zero =>
    intro l f2 h1 _
    have : l = [] := by cases l with
      | nil => rfl
      | cons a r => simp at h1
    subst this
    cases f2 <;> rfl
  | succ f ih =>
    intro l f2 h1 h2
    cases l with
    | nil => cases f2 <;> rfl
    | cons b rest =>
      cases f2 with
      | zero => simp at h2
      | succ f2p =>
        simp only [utf8DecodeGo]
        cases hd : utf8DecodeOne (b :: rest) with
        | none => rfl
        | some cr =>
          obtain ⟨c, r⟩ := cr
          have hlen := utf8DecodeOne_length hd
          simp only [List.length_cons] at h1 h2 hlen
          dsimp only
          rw [@ih r f2p (by omega) (by omega)]

/-- Decode a whole byte list as UTF-8 (std str from_utf8). -/
def utf8Decode (l : List Nat) : Option (List Char) :=
  utf8DecodeGo l.length l

theorem utf8Decode_cons {b : Nat} {rest : List Nat} {c : Char} {r : List Nat}
    (h : utf8DecodeOne (b :: rest) = some (c, r)) :
    utf8Decode (b :: rest) = (utf8Decode r).map (c :: ·) := by
  have hlen := utf8DecodeOne_length h
  simp only [List.length_cons] at hlen
  unfold utf8Decode
  simp only [List.length_cons, utf8DecodeGo, h]
  rw [@utf8DecodeGo_mono rest.length r r.length (by omega) le_rfl]

theorem utf8Decode_cons_none {b : Nat} {rest : List Nat}
    (h : utf8DecodeOne (b :: rest) = none) : utf8Decode (b :: rest) = none := by
  unfold utf8Decode
  simp only [List.length_cons, utf8DecodeGo, h]

/-- The NUL character. -/
def nulChar : Char := Char.ofNat 0

/-- Drop NUL characters from the front of a character list. -/
def dropNul (l : List Char) : List Char := l.dropWhile (· = nulChar)

/-- Rust str trim_matches with the NUL pattern: strips NUL characters from
BOTH ends of the string. -/
def trimNul (l : List Char) : List Char :=
  ((dropNul l).reverse.dropWhile (· = nulChar)).reverse

/- ---------------------------------------------------------------------
The identifier codec from src/src/utils.rs (also duplicated in
processor.rs as Processor chain_id_to_str).
--------------------------------------------------------------------- -/

/-- utils.rs str_to_chain_id: left-justify the UTF-8 bytes of the text in a
4 byte field, zero padded.  The copy_from_slice in the source panics when
the text exceeds 4 bytes; that is the none case here. -/
def str_to_chain_id (text : List Char) : Option (List Nat) :=
  let bs := utf8EncodeList text
  if bs.length ≤ 4 then some (bs ++ List.replicate (4 - bs.length) 0) else none

/-- utils.rs / processor.rs chain_id_to_str: UTF-8 validate the 4 bytes
(InvalidArgument on failure) and trim NUL from both ends
(str trim_matches). -/
def chain_id_to_str (chainId : List Nat) : Except ProgramError (List Char) :=
  match utf8Decode chainId with
  | none => .error .invalidArgument
  | some cs => .ok (trimNul cs)

/- ---------------------------------------------------------------------
bs58 encoding of the 64 byte tx id (used in the lock account seed).
--------------------------------------------------------------------- -/

/-- Base58 digits of a Nat, least significant first, with explicit fuel
(structural recursion so the kernel can evaluate it).  Fuel f with
n < 58 ^ f yields all digits, see digits58Go_mono. -/
def digits58Go : Nat → Nat → List Nat
  | _, 0 => []
  | 0, _ + 1 => []
  | f + 1, n + 1 => (n + 1) % 58 :: digits58Go f ((n + 1) / 58)

theorem digits58Go_mono {f1 : Nat} : ∀ {n f2 : Nat},
    n < 58 ^ f1 → n < 58 ^ f2 → digits58Go f1 n = digits58Go f2 n := by
  induction f1 with
  | zero =>
    intro n f2 h1 _
    have : n = 0 := by simpa using h1
    subst this
    cases f2 <;> rfl
  | succ f ih =>
    intro n f2 h1 h2
    cases n with
    | zero => cases f2 <;> rfl
    | succ m =>
      cases f2 with
      | zero => simp at h2
      | succ f2p =>
        simp only [digits58Go]
        have hdiv1 : (m + 1) / 58 < 58 ^ f := by
          apply Nat.div_lt_of_lt_mul
          calc m + 1 < 58 ^ (f + 1) := h1
          _ = 58 * 58 ^ f := by ring
        have hdiv2 : (m + 1) / 58 < 58 ^ f2p := by
          apply Nat.div_lt_of_lt_mul
          calc m + 1 < 58 ^ (f2p + 1) := h2
          _ = 58 * 58 ^ f2p := by ring
        rw [ih hdiv1 hdiv2]

/-- The bitcoin base58 alphabet. -/
def bs58Alphabet : List Char :=
  "123456789ABCDEFGHJKLMNPQRSTUVWXYZabcdefghijkmnopqrstuvwxyz".data

/-- Count leading zero bytes. -/
def countLeadZeros : List Nat → Nat
  | [] => 0
  | b :: r => if b = 0 then countLeadZeros r + 1 else 0

/-- Big-endian byte list to Nat. -/
def beNat (l : List Nat) : Nat := l.foldl (fun acc b => acc * 256 + b) 0

/-- bs58 encode into_string: one alphabet[0] character per leading zero
byte, then the base58 digits of the value, most significant first.  The
fuel 2 * length + 1 always suffices: a value below 256 ^ len is below
58 ^ (2 * len + 1) because 256 < 58 ^ 2. -/
def bs58Chars (bytes : List Nat) : List Char :=
  List.replicate (countLeadZeros bytes) '1' ++
    ((digits58Go (2 * bytes.length + 1) (beNat bytes)).reverse.map
      (fun d => bs58Alphabet.getD d '1'))

/- ---------------------------------------------------------------------
Record types from src/src/state.rs.  PROGRAM_VERSION = 1 (src/src/lib.rs).
is_initialized is version == PROGRAM_VERSION.
--------------------------------------------------------------------- -/

/-- Current program version (src/src/lib.rs PROGRAM_VERSION). -/
def PROGRAM_VERSION : Nat := 1

/-- state.rs Bridge (LEN 33). -/
structure BridgeRec where
  version : Nat
  owner : Pubkey
deriving DecidableEq, Repr

def BridgeRec.LEN : Nat := 33

def zeroBridge : BridgeRec := { version := 0, owner := zeroPubkey }

def BridgeRec.new (owner : Pubkey) : BridgeRec :=
  { version := PROGRAM_VERSION, owner }

/-- state.rs Blockchain (LEN 85). -/
structure BlockchainRec where
  version : Nat
  bridge : Pubkey
  blockchain_id : List Nat
  validators : Nat
  locks : Nat
  contract_address : List Nat
deriving DecidableEq, Repr

def BlockchainRec.LEN : Nat := 85

def zeroBlockchain : BlockchainRec :=
  { version := 0, bridge := zeroPubkey, blockchain_id := List.replicate 4 0,
    validators := 0, locks := 0, contract_address := List.replicate 32 0 }

def BlockchainRec.new (bridge : Pubkey) (blockchain_id : List Nat)
    (contract_address : List Nat) : BlockchainRec :=
  { version := PROGRAM_VERSION, bridge, blockchain_id,
    locks := 0, validators := 0, contract_address }

/-- state.rs Validator (LEN 77). -/
structure ValidatorRec where
  version : Nat
  blockchain_id : List Nat
  index : Nat
  pub_key : List Nat
  owner : Pubkey
deriving DecidableEq, Repr

def ValidatorRec.LEN : Nat := 77

def zeroValidator : ValidatorRec :=
  { version := 0, blockchain_id := List.replicate 4 0, index := 0,
    pub_key := List.replicate 32 0, owner := zeroPubkey }

def ValidatorRec.new (blockchain_id : List Nat) (index : Nat)
    (pub_key : List Nat) (owner : Pubkey) : ValidatorRec :=
  { version := PROGRAM_VERSION, blockchain_id, index, pub_key, owner }

/-- state.rs Lock (LEN 237). -/
structure LockRec where
  version : Nat
  index : Nat
  lock_id : Nat
  tx_id : List Nat
  bridge : Pubkey
  token_source_address : List Nat
  token_source : List Nat
  source : List Nat
  sender : List Nat
  recipient : List Nat
  destination : List Nat
  amount : Nat
  signatures : Nat
deriving DecidableEq, Repr

def LockRec.LEN : Nat := 237

def zeroLock : LockRec :=
  { version := 0, index := 0, lock_id := 0, tx_id := List.replicate 64 0,
    bridge := zeroPubkey, token_source_address := List.replicate 32 0,
    token_source := List.replicate 4 0, source := List.replicate 4 0,
    sender := List.replicate 32 0, recipient := List.replicate 32 0,
    destination := List.replicate 4 0, amount := 0, signatures := 0 }

/-- state.rs Lock new, in the argument order of the source signature. -/
def LockRec.new (index lock_id : Nat) (tx_id : List Nat) (bridge : Pubkey)
    (token_source_address token_source source sender recipient destination : List Nat)
    (amount : Nat) : LockRec :=
  { version := PROGRAM_VERSION, index, lock_id, tx_id, bridge,
    token_source, token_source_address, source, sender, recipient,
    destination, amount, signatures := 0 }

/-- Modelled from the spec: the Signature record revision the processor
was written against is missing from src (state.rs holds a later 150 byte
revision whose constructor does not match the 4 argument call in
processor.rs).  Per spec section 6 the earlier revision is 138 bytes:
version, slot index, owning bridge, the 65 raw signature bytes and the
validator account address, which is exactly what the processor call site
passes. -/
structure SignatureRec where
  version : Nat
  index : Nat
  bridge : Pubkey
  signature : List Nat
  validator : Pubkey
deriving DecidableEq, Repr

def SignatureRec.LEN : Nat := 138

def zeroSignature : SignatureRec :=
  { version := 0, index := 0, bridge := zeroPubkey,
    signature := List.replicate 65 0, validator := zeroPubkey }

def SignatureRec.new (index : Nat) (bridge : Pubkey) (signature : List Nat)
    (validator : Pubkey) : SignatureRec :=
  { version := PROGRAM_VERSION, index, bridge, signature, validator }

/-- state.rs User (LEN 53). -/
structure UserRec where
  version : Nat
  blockchain_id : List Nat
  address : List Nat
  sent : Nat
  received : Nat
deriving DecidableEq, Repr

def UserRec.LEN : Nat := 53

def zeroUser : UserRec :=
  { version := 0, blockchain_id := List.replicate 4 0,
    address := List.replicate 32 0, sent := 0, received := 0 }

def UserRec.new (blockchain_id : List Nat) (address : List Nat) : UserRec :=
  { version := PROGRAM_VERSION, blockchain_id, address, sent := 0, received := 0 }

/-- Modelled from the spec: the SentLock and ReceivedLock record types the
processor allocates and writes are missing from src (state.rs holds a
later unified LockTx revision with a different constructor).  Per spec
section 3 and 6 the transfer leg record of this revision holds the
version stamp and the 64 byte tx id, 65 bytes. -/
structure LockTxRec where
  version : Nat
  tx_id : List Nat
deriving DecidableEq, Repr

def LockTxRec.LEN : Nat := 65

def LockTxRec.new (tx_id : List Nat) : LockTxRec :=
  { version := PROGRAM_VERSION, tx_id }

/- ---------------------------------------------------------------------
Accounts and state.
--------------------------------------------------------------------- -/

/-- Semantic content of an account data buffer. -/
inductive Val where
  | zero
  | bridge (b : BridgeRec)
  | blockchain (b : BlockchainRec)
  | validator (v : ValidatorRec)
  | lock (l : LockRec)
  | signature (sg : SignatureRec)
  | user (u : UserRec)
  | lockTx (t : LockTxRec)
deriving DecidableEq, Repr

/-- One account: balance, data buffer length, buffer content, owner. -/
structure Acct where
  lamports : Nat
  dlen : Nat
  val : Val
  owner : Pubkey
deriving DecidableEq, Repr

/-- A nonexistent account: no lamports, empty data, system owned. -/
def emptyAcct : Acct :=
  { lamports := 0, dlen := 0, val := .zero, owner := zeroPubkey }

/-- Global account state. -/
def State := Pubkey → Acct

def emptyState : State := fun _ => emptyAcct

def updateState (s : State) (k : Pubkey) (a : Acct) : State :=
  fun k2 => if k2 = k then a else s k2

theorem updateState_apply (s : State) (k : Pubkey) (a : Acct) (k2 : Pubkey) :
    updateState s k a k2 = if k2 = k then a else s k2 := rfl

@[simp] theorem updateState_same (s : State) (k : Pubkey) (a : Acct) :
    updateState s k a k = a := by simp [updateState]

@[simp] theorem updateState_other (s : State) (k : Pubkey) (a : Acct)
    (k2 : Pubkey) (h : k2 ≠ k) : updateState s k a k2 = s k2 := by
  simp [updateState, h]

theorem updateState_comm {s : State} {x : Pubkey} {a : Acct} {y : Pubkey} {b : Acct}
    (h : y ≠ x) :
    updateState (updateState s x a) y b = updateState (updateState s y b) x a := by
  funext k
  unfold updateState
  by_cases h1 : k = y
  · subst h1
    rw [if_pos rfl, if_neg h, if_pos rfl]
  · rw [if_neg h1]
    by_cases h2 : k = x
    · rw [if_pos h2, if_pos h2]
    · rw [if_neg h2, if_neg h2, if_neg h1]

theorem updateState_squash {s : State} {x : Pubkey} {a b : Acct} :
    updateState (updateState s x a) x b = updateState s x b := by
  funext k
  unfold updateState
  by_cases h1 : k = x <;> simp [h1]

/-- AccountInfo data_is_empty. -/
def dataIsEmpty (a : Acct) : Bool := a.dlen = 0

/- ---------------------------------------------------------------------
Borsh try_from_slice / serialize over the semantic buffers.
try_from_slice requires the buffer length to be exactly the record size
(borsh rejects trailing bytes) and reads a zero-filled buffer as the
zero-valued record.  serialize into a borrowed buffer fails when the
buffer is too small and otherwise replaces the content.
--------------------------------------------------------------------- -/

def parseBridge (a : Acct) : Except ProgramError BridgeRec :=
  if a.dlen ≠ BridgeRec.LEN then .error .borshIoError
  else match a.val with
    | .zero => .ok zeroBridge
    | .bridge b => .ok b
    | _ => .error .borshIoError

def parseBlockchain (a : Acct) : Except ProgramError BlockchainRec :=
  if a.dlen ≠ BlockchainRec.LEN then .error .borshIoError
  else match a.val with
    | .zero => .ok zeroBlockchain
    | .blockchain b => .ok b
    | _ => .error .borshIoError

def parseValidator (a : Acct) : Except ProgramError ValidatorRec :=
  if a.dlen ≠ ValidatorRec.LEN then .error .borshIoError
  else match a.val with
    | .zero => .ok zeroValidator
    | .validator v => .ok v
    | _ => .error .borshIoError

def parseLock (a : Acct) : Except ProgramError LockRec :=
  if a.dlen ≠ LockRec.LEN then .error .borshIoError
  else match a.val with
    | .zero => .ok zeroLock
    | .lock l => .ok l
    | _ => .error .borshIoError

def parseUser (a : Acct) : Except ProgramError UserRec :=
  if a.dlen ≠ UserRec.LEN then .error .borshIoError
  else match a.val with
    | .zero => .ok zeroUser
    | .user u => .ok u
    | _ => .error .borshIoError

/-- serialize into the borrowed account buffer: fails when the buffer is
smaller than the record, otherwise stores the record (keeping the buffer
length). -/
def storeVal (a : Acct) (v : Val) (len : Nat) : Except ProgramError Acct :=
  if a.dlen < len then .error .borshIoError
  else .ok { a with val := v }

/- ---------------------------------------------------------------------
Address derivation (processor.rs seed checks).  Pubkey create_with_seed
rejects seeds longer than MAX_SEED_LEN = 32 bytes; otherwise the derived
address is a collision-resistant function of (base, seed, program id),
modelled by the injective constructor.
--------------------------------------------------------------------- -/

def createWithSeed (base : Pubkey) (seed : List Char) (owner : Pubkey) :
    Except ProgramError Pubkey :=
  if 32 < utf8Len seed then .error .maxSeedLengthExceeded
  else .ok (.createdWithSeed base seed owner)

/-- Decimal digits of a u64, as characters (format of an u64 argument). -/
def natChars (n : Nat) : List Char := (Nat.repr n).data

/-- processor.rs validate_bridge_authority_and_get_bump_seed: the expected
authority is the PDA of the bridge account key; mismatch is InvalidSeeds.
The bump seed itself plays no further role in the model because the seed
checks performed before every allocation already pin the signer. -/
def validate_bridge_authority (programId bridgeAccount authorityAccount : Pubkey) :
    Except ProgramError Unit :=
  if Pubkey.pdaOfKey bridgeAccount programId = authorityAccount then .ok ()
  else .error .invalidSeeds

/-- processor.rs validate_user_address_authority_and_get_bump_seed. -/
def validate_user_address_authority (programId : Pubkey) (userAddress : List Nat)
    (authorityAccount : Pubkey) : Except ProgramError Unit :=
  if Pubkey.pdaOfBytes userAddress programId = authorityAccount then .ok ()
  else .error .invalidSeeds

/-- Shared shape of the check_and_get_*_account_seed functions: derive the
expected address from (authority, seed) and compare with the supplied
account key. -/
def checkSeedAgainst (programId : Pubkey) (seed : List Char)
    (authority account : Pubkey) : Except ProgramError (List Char) := do
  let expected ← createWithSeed authority seed programId
  if expected = account then .ok seed else .error .invalidSeeds

/-- Seed text blockchain_{chain}. -/
def blockchainSeed (cs : List Char) : List Char := "blockchain_".data ++ cs

/-- processor.rs check_and_get_blockchain_account_seed. -/
def check_and_get_blockchain_account_seed (programId : Pubkey)
    (blockchain_id : List Nat) (bridgeAuthority blockchainAccount : Pubkey) :
    Except ProgramError (List Char) := do
  let cs ← chain_id_to_str blockchain_id
  checkSeedAgainst programId (blockchainSeed cs) bridgeAuthority blockchainAccount

/-- Seed text validator_{chain}_{index}. -/
def validatorSeed (cs : List Char) (index : Nat) : List Char :=
  "validator_".data ++ cs ++ "_".data ++ natChars index

/-- processor.rs check_and_get_validator_account_seed. -/
def check_and_get_validator_account_seed (programId : Pubkey)
    (blockchain_id : List Nat) (index : Nat)
    (bridgeAuthority validatorAccount : Pubkey) :
    Except ProgramError (List Char) := do
  let cs ← chain_id_to_str blockchain_id
  checkSeedAgainst programId (validatorSeed cs index) bridgeAuthority validatorAccount

/-- Seed text lock_{chain}_{first 20 chars of bs58(tx_id)}.  The source
slices the first 20 BYTES of the bs58 string; bs58 output is ASCII so
byte twenty is a character boundary, and C8 proves the bs58 string of a
64 byte tx id is always at least 64 characters, so the Rust slice never
panics. -/
def lockSeed (cs : List Char) (tx_id : List Nat) : List Char :=
  "lock_".data ++ cs ++ "_".data ++ (bs58Chars tx_id).take 20

/-- processor.rs check_and_get_lock_account_seed. -/
def check_and_get_lock_account_seed (programId : Pubkey) (source tx_id : List Nat)
    (bridgeAuthority lockAccount : Pubkey) : Except ProgramError (List Char) := do
  let cs ← chain_id_to_str source
  checkSeedAgainst programId (lockSeed cs tx_id) bridgeAuthority lockAccount

/-- Seed text signature_lock_{chain}_{lock_id}_{index}.  Note the index
the processor passes here is the CURRENT signature count of the lock,
not a validator index. -/
def signatureSeed (cs : List Char) (lock_id index : Nat) : List Char :=
  "signature_lock_".data ++ cs ++ "_".data ++ natChars lock_id ++ "_".data ++ natChars index

/-- processor.rs check_and_get_signature_account_seed. -/
def check_and_get_signature_account_seed (programId : Pubkey) (source : List Nat)
    (lock_id index : Nat) (bridgeAuthority signatureAccount : Pubkey) :
    Except ProgramError (List Char) := do
  let cs ← chain_id_to_str source
  checkSeedAgainst programId (signatureSeed cs lock_id index) bridgeAuthority signatureAccount

/-- Seed text user_{chain}. -/
def userSeed (cs : List Char) : List Char := "user_".data ++ cs

/-- processor.rs check_and_get_user_account_seed. -/
def check_and_get_user_account_seed (programId : Pubkey) (blockchain_id : List Nat)
    (userAuthority userAccount : Pubkey) : Except ProgramError (List Char) := do
  let cs ← chain_id_to_str blockchain_id
  checkSeedAgainst programId (userSeed cs) userAuthority userAccount

/-- Seed text sent_{chain}_{index}. -/
def sentSeed (cs : List Char) (index : Nat) : List Char :=
  "sent_".data ++ cs ++ "_".data ++ natChars index

/-- processor.rs check_and_get_sent_lock_account_seed. -/
def check_and_get_sent_lock_account_seed (programId : Pubkey) (blockchain_id : List Nat)
    (userAuthority : Pubkey) (index : Nat) (sentLockAccount : Pubkey) :
    Except ProgramError (List Char) := do
  let cs ← chain_id_to_str blockchain_id
  checkSeedAgainst programId (sentSeed cs index) userAuthority sentLockAccount

/-- Seed text received_{chain}_{index}. -/
def receivedSeed (cs : List Char) (index : Nat) : List Char :=
  "received_".data ++ cs ++ "_".data ++ natChars index

/-- processor.rs check_and_get_received_lock_account_seed. -/
def check_and_get_received_lock_account_seed (programId : Pubkey) (blockchain_id : List Nat)
    (userAuthority : Pubkey) (index : Nat) (receivedLockAccount : Pubkey) :
    Except ProgramError (List Char) := do
  let cs ← chain_id_to_str blockchain_id
  checkSeedAgainst programId (receivedSeed cs index) userAuthority receivedLockAccount

/- ---------------------------------------------------------------------
The storage allocation collaborator (system program create_account_with_seed
reached through invoke_signed in processor.rs create_account_with_seed and
create_account_with_user_seed).  It re-derives the address from
(base, seed), fails with AccountAlreadyInUse when the target account is
occupied and with ResultWithNegativeLamports when the payer cannot fund
the rent-exempt balance; on success it debits the payer and installs a
zero-filled, program-owned buffer of the requested size.  The required
PDA signatures hold by construction here: the processors only call this
after validating the authority, and invoke_signed signs with exactly the
validated bump seed.
--------------------------------------------------------------------- -/

def allocateAccount (rent : Nat → Nat) (programId : Pubkey) (s : State)
    (payer newKey authority : Pubkey) (seed : List Char) (size : Nat) :
    Except ProgramError State := do
  let expected ← createWithSeed authority seed programId
  if expected ≠ newKey then .error (.custom 5)
  else
    let tgt := s newKey
    if tgt.lamports ≠ 0 ∨ tgt.dlen ≠ 0 ∨ tgt.owner ≠ zeroPubkey then
      .error accountAlreadyInUseErr
    else
      let need := rent size
      let payerAcct := s payer
      if payerAcct.lamports < need then .error negativeLamportsErr
      else
        let s1 := updateState s payer { payerAcct with lamports := payerAcct.lamports - need }
        .ok (updateState s1 newKey
          { lamports := need, dlen := size, val := .zero, owner := programId })

/- ---------------------------------------------------------------------
Run results: success or a typed error, each carrying the account state as
left by the core (the core performs no rollback; the host transaction
boundary is processInstructionTx below).
--------------------------------------------------------------------- -/

inductive RunRes where
  | ok (s : State)
  | fail (e : ProgramError) (s : State)

/-- The returned status: none on success, the error otherwise. -/
def RunRes.statusOf : RunRes → Option ProgramError
  | .ok _ => none
  | .fail e _ => some e

/-- The account state left behind by the core. -/
def RunRes.stateOf : RunRes → State
  | .ok s => s
  | .fail _ s => s

/-- Whether the run succeeded. -/
def RunRes.isOk : RunRes → Bool
  | .ok _ => true
  | .fail _ _ => false

/-- Apply a state transformation to the final state of a run, leaving the
status (success or the error) unchanged. -/
def mapRunState (f : State → State) : RunRes → RunRes
  | .ok s => .ok (f s)
  | .fail e s => .fail e (f s)

/-- Write a record into the data buffer of account k. -/
def storeAt (s : State) (k : Pubkey) (v : Val) (len : Nat) :
    Except ProgramError State := do
  let a ← storeVal (s k) v len
  .ok (updateState s k a)

/-- Error type that carries the state at the failure point, so that the
core keeps its partial mutations visible (no rollback in the core). -/
abbrev EXS (α : Type) := Except (ProgramError × State) α

/-- Attach the current state to a plain error. -/
def liftE {α : Type} (s : State) : Except ProgramError α → EXS α
  | .error e => .error (e, s)
  | .ok a => .ok a

/- ---------------------------------------------------------------------
processor.rs get_or_create_user_data, create_sent_lock_account and
create_received_lock_account.
--------------------------------------------------------------------- -/

/-- processor.rs get_or_create_user_data: validate the user authority,
check the user account seed, then either allocate a fresh user account
and hand back a new in-memory User (NOT yet serialized; the caller
serializes later), or deserialize the existing one. -/
def get_or_create_user_data (rent : Nat → Nat) (programId : Pubkey)
    (blockchain_id user_address : List Nat) (userAuthK userK payerK : Pubkey)
    (s : State) : EXS (UserRec × State) := do
  let _ ← liftE s (validate_user_address_authority programId user_address userAuthK)
  let seed ← liftE s (check_and_get_user_account_seed programId blockchain_id userAuthK userK)
  if dataIsEmpty (s userK) then do
    let s1 ← liftE s (allocateAccount rent programId s payerK userK userAuthK seed UserRec.LEN)
    .ok (UserRec.new blockchain_id user_address, s1)
  else do
    let u ← liftE s (parseUser (s userK))
    .ok (u, s)

/-- processor.rs create_sent_lock_account. -/
def create_sent_lock_account (rent : Nat → Nat) (programId : Pubkey)
    (blockchain_id : List Nat) (payerK sentLockK userAuthK : Pubkey)
    (user_address : List Nat) (index : Nat) (tx_id : List Nat)
    (s : State) : EXS State := do
  let _ ← liftE s (validate_user_address_authority programId user_address userAuthK)
  let seed ← liftE s (check_and_get_sent_lock_account_seed programId blockchain_id userAuthK index sentLockK)
  let s1 ← liftE s (allocateAccount rent programId s payerK sentLockK userAuthK seed LockTxRec.LEN)
  let s2 ← liftE s1 (storeAt s1 sentLockK (.lockTx (LockTxRec.new tx_id)) LockTxRec.LEN)
  .ok s2

/-- processor.rs create_received_lock_account. -/
def create_received_lock_account (rent : Nat → Nat) (programId : Pubkey)
    (blockchain_id : List Nat) (payerK receivedLockK userAuthK : Pubkey)
    (user_address : List Nat) (index : Nat) (tx_id : List Nat)
    (s : State) : EXS State := do
  let _ ← liftE s (validate_user_address_authority programId user_address userAuthK)
  let seed ← liftE s (check_and_get_received_lock_account_seed programId blockchain_id userAuthK index receivedLockK)
  let s1 ← liftE s (allocateAccount rent programId s payerK receivedLockK userAuthK seed LockTxRec.LEN)
  let s2 ← liftE s1 (storeAt s1 receivedLockK (.lockTx (LockTxRec.new tx_id)) LockTxRec.LEN)
  .ok s2

/-- Default entry handed out when an account index is missing (the length
guard fails first, so this value is never observed). -/
def noMeta : Pubkey × Bool := (zeroPubkey, false)

/- ---------------------------------------------------------------------
processor.rs process_init_bridge.
Accounts: 0 bridge, 1 owner, 2 rent sysvar.
--------------------------------------------------------------------- -/

def processInitBridge (rent : Nat → Nat) (_programId : Pubkey)
    (metas : List (Pubkey × Bool)) (s : State) : RunRes :=
  if metas.length < 3 then .fail .notEnoughAccountKeys s else
  let bridgeK := (metas.getD 0 noMeta).1
  let ownerM := metas.getD 1 noMeta
  if ¬ ownerM.2 then .fail .missingRequiredSignature s else
  match parseBridge (s bridgeK) with
  | .error e => .fail e s
  | .ok bridgeData =>
    if bridgeData.version = PROGRAM_VERSION then .fail .accountAlreadyInitialized s else
    if (s bridgeK).lamports < rent (s bridgeK).dlen then .fail .accountNotRentExempt s else
    match storeAt s bridgeK (.bridge (BridgeRec.new ownerM.1)) BridgeRec.LEN with
    | .error e => .fail e s
    | .ok s1 => .ok s1

/- ---------------------------------------------------------------------
processor.rs process_add_blockchain.
Accounts: 0 bridge, 1 blockchain, 2 payer, 3 bridge authority, 4 rent.
The function reads only the KEY of the bridge account (never its data)
and consults no signer flag.
--------------------------------------------------------------------- -/

def processAddBlockchain (rent : Nat → Nat) (programId : Pubkey)
    (metas : List (Pubkey × Bool)) (blockchain_id contract_address : List Nat)
    (s : State) : RunRes :=
  if metas.length < 5 then .fail .notEnoughAccountKeys s else
  let bridgeK := (metas.getD 0 noMeta).1
  let blockchainK := (metas.getD 1 noMeta).1
  let payerK := (metas.getD 2 noMeta).1
  let authK := (metas.getD 3 noMeta).1
  match validate_bridge_authority programId bridgeK authK with
  | .error e => .fail e s
  | .ok _ =>
  match check_and_get_blockchain_account_seed programId blockchain_id authK blockchainK with
  | .error e => .fail e s
  | .ok seed =>
  match allocateAccount rent programId s payerK blockchainK authK seed BlockchainRec.LEN with
  | .error e => .fail e s
  | .ok s1 =>
  match storeAt s1 blockchainK
      (.blockchain (BlockchainRec.new bridgeK blockchain_id contract_address))
      BlockchainRec.LEN with
  | .error e => .fail e s1
  | .ok s2 => .ok s2

/- ---------------------------------------------------------------------
processor.rs process_add_validator.
Accounts: 0 bridge, 1 blockchain, 2 validator, 3 payer, 4 bridge
authority, 5 rent.
--------------------------------------------------------------------- -/

def processAddValidator (rent : Nat → Nat) (programId : Pubkey)
    (metas : List (Pubkey × Bool)) (blockchain_id pub_key : List Nat)
    (s : State) : RunRes :=
  if metas.length < 6 then .fail .notEnoughAccountKeys s else
  let bridgeK := (metas.getD 0 noMeta).1
  let blockchainK := (metas.getD 1 noMeta).1
  let validatorK := (metas.getD 2 noMeta).1
  let payerK := (metas.getD 3 noMeta).1
  let authK := (metas.getD 4 noMeta).1
  match parseBlockchain (s blockchainK) with
  | .error e => .fail e s
  | .ok blockchainData =>
  if blockchainData.version ≠ PROGRAM_VERSION then .fail .uninitializedAccount s else
  let validatorIndex := blockchainData.validators
  match validate_bridge_authority programId bridgeK authK with
  | .error e => .fail e s
  | .ok _ =>
  match check_and_get_validator_account_seed programId blockchain_id validatorIndex authK validatorK with
  | .error e => .fail e s
  | .ok seed =>
  match allocateAccount rent programId s payerK validatorK authK seed ValidatorRec.LEN with
  | .error e => .fail e s
  | .ok s1 =>
  match storeAt s1 blockchainK
      (.blockchain { blockchainData with validators := blockchainData.validators + 1 })
      BlockchainRec.LEN with
  | .error e => .fail e s1
  | .ok s2 =>
  match storeAt s2 validatorK
      (.validator (ValidatorRec.new blockchain_id validatorIndex pub_key payerK))
      ValidatorRec.LEN with
  | .error e => .fail e s2
  | .ok s3 => .ok s3

/- ---------------------------------------------------------------------
processor.rs process_add_signature.
Accounts: 0 bridge, 1 blockchain, 2 validator, 3 lock, 4 signature,
5 bridge authority, 6 sender user, 7 sender user authority,
8 recipient user, 9 recipient user authority, 10 sent lock,
11 received lock, 12 payer, 13 rent.
--------------------------------------------------------------------- -/

def processAddSignature (rent : Nat → Nat) (programId : Pubkey)
    (metas : List (Pubkey × Bool))
    (signature token_source token_source_address source tx_id : List Nat)
    (lock_id : Nat) (destination sender recipient : List Nat) (amount : Nat)
    (s : State) : RunRes :=
  if metas.length < 14 then .fail .notEnoughAccountKeys s else
  let bridgeK := (metas.getD 0 noMeta).1
  let blockchainK := (metas.getD 1 noMeta).1
  let validatorK := (metas.getD 2 noMeta).1
  let lockK := (metas.getD 3 noMeta).1
  let sigK := (metas.getD 4 noMeta).1
  let authK := (metas.getD 5 noMeta).1
  let senderUserK := (metas.getD 6 noMeta).1
  let senderAuthK := (metas.getD 7 noMeta).1
  let recipUserK := (metas.getD 8 noMeta).1
  let recipAuthK := (metas.getD 9 noMeta).1
  let sentK := (metas.getD 10 noMeta).1
  let recvK := (metas.getD 11 noMeta).1
  let payerM := metas.getD 12 noMeta
  let payerK := payerM.1
  if ¬ payerM.2 then .fail .missingRequiredSignature s else
  match parseBridge (s bridgeK) with
  | .error e => .fail e s
  | .ok bridgeData =>
  if bridgeData.version ≠ PROGRAM_VERSION then .fail .uninitializedAccount s else
  match parseBlockchain (s blockchainK) with
  | .error e => .fail e s
  | .ok blockchainData =>
  if blockchainData.version ≠ PROGRAM_VERSION then .fail .uninitializedAccount s else
  match parseValidator (s validatorK) with
  | .error e => .fail e s
  | .ok validatorData =>
  if validatorData.version ≠ PROGRAM_VERSION then .fail .uninitializedAccount s else
  if validatorData.owner ≠ payerK then .fail .invalidArgument s else
  if validatorData.blockchain_id ≠ source then .fail .invalidArgument s else
  match validate_bridge_authority programId bridgeK authK with
  | .error e => .fail e s
  | .ok _ =>
  match check_and_get_lock_account_seed programId source tx_id authK lockK with
  | .error e => .fail e s
  | .ok lockSeedText =>
  let branch : EXS (LockRec × State) :=
    if dataIsEmpty (s lockK) then do
      let s1 ← liftE s (allocateAccount rent programId s payerK lockK authK lockSeedText LockRec.LEN)
      let index := blockchainData.locks
      let s2 ← liftE s1 (storeAt s1 blockchainK
        (.blockchain { blockchainData with locks := blockchainData.locks + 1 })
        BlockchainRec.LEN)
      let us ← get_or_create_user_data rent programId source sender senderAuthK senderUserK payerK s2
      let ur ← get_or_create_user_data rent programId destination recipient recipAuthK recipUserK payerK us.2
      let s5 ← create_sent_lock_account rent programId source payerK sentK senderAuthK sender us.1.sent tx_id ur.2
      let s6 ← create_received_lock_account rent programId destination payerK recvK recipAuthK recipient ur.1.received tx_id s5
      let s7 ← liftE s6 (storeAt s6 senderUserK (.user { us.1 with sent := us.1.sent + 1 }) UserRec.LEN)
      let s8 ← liftE s7 (storeAt s7 recipUserK (.user { ur.1 with received := ur.1.received + 1 }) UserRec.LEN)
      .ok (LockRec.new index lock_id tx_id bridgeK token_source_address token_source
            source sender recipient destination amount, s8)
    else do
      let l ← liftE s (parseLock (s lockK))
      .ok (l, s)
  match branch with
  | .error es => .fail es.1 es.2
  | .ok ls =>
  let lockData := ls.1
  let sCur := ls.2
  if lockData.version ≠ PROGRAM_VERSION then .fail .uninitializedAccount sCur else
  match check_and_get_signature_account_seed programId source lock_id lockData.signatures authK sigK with
  | .error e => .fail e sCur
  | .ok sigSeedText =>
  match allocateAccount rent programId sCur payerK sigK authK sigSeedText SignatureRec.LEN with
  | .error e => .fail e sCur
  | .ok s9 =>
  match storeAt s9 sigK
      (.signature (SignatureRec.new lockData.signatures bridgeK signature validatorK))
      SignatureRec.LEN with
  | .error e => .fail e s9
  | .ok s10 =>
  match storeAt s10 lockK (.lock { lockData with signatures := lockData.signatures + 1 })
      LockRec.LEN with
  | .error e => .fail e s10
  | .ok s11 => .ok s11

/- ---------------------------------------------------------------------
src/src/instruction.rs BridgeProgramInstruction and its borsh wire
format, and processor.rs process_instruction.
--------------------------------------------------------------------- -/

/-- instruction.rs BridgeProgramInstruction.  Field order follows the
declaration (borsh serializes fields in declaration order; note lock_id
precedes tx_id in the AddSignature payload). -/
inductive BridgeProgramInstruction where
  | initializeBridge
  | addBlockchain (blockchain_id contract_address : List Nat)
  | addValidator (blockchain_id pub_key : List Nat)
  | addSignature (signature token_source token_source_address source : List Nat)
      (lock_id : Nat) (tx_id : List Nat) (destination sender recipient : List Nat)
      (amount : Nat) (revert : Bool)
deriving DecidableEq, Repr

/-- Split off a fixed-size field. -/
def takeN (n : Nat) (l : List Nat) : Option (List Nat × List Nat) :=
  if n ≤ l.length then some (l.take n, l.drop n) else none

/-- Little-endian u64 from 8 bytes. -/
def u64FromLE (bs : List Nat) : Nat := bs.foldr (fun b acc => acc * 256 + b) 0

/-- Borsh deserialization of the instruction enum: a one byte variant tag
followed by the fields in declaration order; bools are one byte 0 or 1;
try_from_slice rejects trailing bytes. -/
def decodeInstruction (input : List Nat) : Option BridgeProgramInstruction :=
  match input with
  | 0 :: rest => if rest = [] then some .initializeBridge else none
  | 1 :: rest => do
    let (bid, r1) ← takeN 4 rest
    let (ca, r2) ← takeN 32 r1
    if r2 = [] then some (.addBlockchain bid ca) else none
  | 2 :: rest => do
    let (bid, r1) ← takeN 4 rest
    let (pk, r2) ← takeN 32 r1
    if r2 = [] then some (.addValidator bid pk) else none
  | 3 :: rest => do
    let (sg, r1) ← takeN 65 rest
    let (ts, r2) ← takeN 4 r1
    let (tsa, r3) ← takeN 32 r2
    let (src, r4) ← takeN 4 r3
    let (lid, r5) ← takeN 8 r4
    let (txid, r6) ← takeN 64 r5
    let (dst, r7) ← takeN 4 r6
    let (snd, r8) ← takeN 32 r7
    let (rcp, r9) ← takeN 32 r8
    let (amt, r10) ← takeN 8 r9
    match r10 with
    | [b] =>
      if b = 0 ∨ b = 1 then
        some (.addSignature sg ts tsa src (u64FromLE lid) txid dst snd rcp
          (u64FromLE amt) (b = 1))
      else none
    | _ => none
  | _ => none

/-- processor.rs process_instruction: borsh-decode the instruction data
(any failure becomes InvalidInstructionData) and dispatch.  The
AddSignature dispatch passes the named fields through; the revert flag of
the instruction revision in src/src/instruction.rs is not consumed by
the processor. -/
def processInstruction (rent : Nat → Nat) (programId : Pubkey)
    (metas : List (Pubkey × Bool)) (input : List Nat) (s : State) : RunRes :=
  match decodeInstruction input with
  | none => .fail .invalidInstructionData s
  | some instr =>
    match instr with
    | .initializeBridge => processInitBridge rent programId metas s
    | .addBlockchain bid ca => processAddBlockchain rent programId metas bid ca s
    | .addValidator bid pk => processAddValidator rent programId metas bid pk s
    | .addSignature sg ts tsa src lid txid dst snd rcp amt _ =>
      processAddSignature rent programId metas sg ts tsa src txid lid dst snd rcp amt s

/-- Modelled from the spec: the host execution environment applies each
instruction as an all-or-nothing transaction (spec section 5: the
all-or-nothing boundary is assumed from the host; the core implements no
rollback).  On success the mutated state commits; on error the pre-state
is restored and only the typed error escapes. -/
def processInstructionTx (rent : Nat → Nat) (programId : Pubkey)
    (metas : List (Pubkey × Bool)) (input : List Nat) (s : State) :
    Option ProgramError × State :=
  match processInstruction rent programId metas input s with
  | .ok s2 => (none, s2)
  | .fail e _ => (some e, s)

/- ---------------------------------------------------------------------
Infrastructure lemmas: UTF-8 lengths, bs58 properties, seed shapes.
--------------------------------------------------------------------- -/

theorem utf8Len_append (a b : List Char) :
    utf8Len (a ++ b) = utf8Len a + utf8Len b := by
  simp [utf8Len, utf8EncodeList]

theorem utf8EncodeChar_ascii {c : Char} (h : c.toNat < 128) :
    utf8EncodeChar c = [c.toNat] := by
  simp [utf8EncodeChar, h]

theorem utf8Len_ascii {l : List Char} (h : ∀ c ∈ l, c.toNat < 128) :
    utf8Len l = l.length := by
  induction l with
  | nil => rfl
  | cons c r ih =>
    have hc : c.toNat < 128 := h c (by simp)
    have hr : ∀ x ∈ r, x.toNat < 128 := fun x hx => h x (by simp [hx])
    have ihr := ih hr
    simp only [utf8Len, utf8EncodeList, List.flatMap_cons, List.length_append,
      List.length_cons] at ihr ⊢
    rw [utf8EncodeChar_ascii hc]
    simp only [List.length_cons, List.length_nil]
    omega

theorem bs58Alphabet_ascii : ∀ c ∈ bs58Alphabet, c.toNat < 128 := by decide

theorem getD_bs58Alphabet_ascii (d : Nat) : (bs58Alphabet.getD d '1').toNat < 128 := by
  by_cases hd : d < bs58Alphabet.length
  · have : bs58Alphabet.getD d '1' = bs58Alphabet[d] :=
      List.getD_eq_getElem bs58Alphabet '1' hd
    rw [this]
    exact bs58Alphabet_ascii _ (List.getElem_mem hd)
  · have : bs58Alphabet.getD d '1' = '1' :=
      List.getD_eq_default bs58Alphabet '1' (Nat.le_of_not_lt hd)
    rw [this]; decide

theorem bs58Chars_ascii (t : List Nat) : ∀ c ∈ bs58Chars t, c.toNat < 128 := by
  intro c hc
  unfold bs58Chars at hc
  rcases List.mem_append.mp hc with h | h
  · have := List.eq_of_mem_replicate h
    subst this; decide
  · rcases List.mem_map.mp h with ⟨d, _, hdc⟩
    subst hdc
    exact getD_bs58Alphabet_ascii d

theorem utf8Len_bs58_take20 (t : List Nat) :
    utf8Len ((bs58Chars t).take 20) ≤ 20 := by
  rw [utf8Len_ascii (fun c hc => bs58Chars_ascii t c (List.mem_of_mem_take hc))]
  simp [List.length_take]

/-- Seed byte-length bounds used to discharge the MAX_SEED_LEN check. -/
theorem utf8Len_lockSeed_le {cs : List Char} (h : utf8Len cs ≤ 4) (t : List Nat) :
    utf8Len (lockSeed cs t) ≤ 30 := by
  unfold lockSeed
  rw [utf8Len_append, utf8Len_append, utf8Len_append]
  have h1 : utf8Len "lock_".data = 5 := by decide
  have h2 : utf8Len "_".data = 1 := by decide
  have := utf8Len_bs58_take20 t
  omega

theorem utf8Len_blockchainSeed_le {cs : List Char} (h : utf8Len cs ≤ 4) :
    utf8Len (blockchainSeed cs) ≤ 15 := by
  unfold blockchainSeed
  rw [utf8Len_append]
  have h1 : utf8Len "blockchain_".data = 11 := by decide
  omega

theorem utf8Len_userSeed_le {cs : List Char} (h : utf8Len cs ≤ 4) :
    utf8Len (userSeed cs) ≤ 9 := by
  unfold userSeed
  rw [utf8Len_append]
  have h1 : utf8Len "user_".data = 5 := by decide
  omega

theorem beNat_replicate_zero_append (z : Nat) (rest : List Nat) :
    beNat (List.replicate z 0 ++ rest) = beNat rest := by
  unfold beNat
  rw [List.foldl_append]
  congr 1
  induction z with
  | zero => rfl
  | succ n ih => simpa [List.replicate_succ] using ih

theorem beNat_foldl_ge (l : List Nat) : ∀ acc : Nat,
    acc * 256 ^ l.length ≤ l.foldl (fun a b => a * 256 + b) acc := by
  induction l with
  | nil => intro acc; simp
  | cons b r ih =>
    intro acc
    calc acc * 256 ^ (b :: r).length = (acc * 256) * 256 ^ r.length := by
          simp [List.length_cons]; ring
    _ ≤ (acc * 256 + b) * 256 ^ r.length := by
          exact Nat.mul_le_mul_right _ (Nat.le_add_right _ _)
    _ ≤ r.foldl (fun a b => a * 256 + b) (acc * 256 + b) := ih _
    _ = (b :: r).foldl (fun a b => a * 256 + b) acc := rfl

theorem beNat_cons_ge {b : Nat} (hb : b ≠ 0) (r : List Nat) :
    256 ^ r.length ≤ beNat (b :: r) := by
  unfold beNat
  calc 256 ^ r.length = 1 * 256 ^ r.length := by ring
  _ ≤ b * 256 ^ r.length := Nat.mul_le_mul_right _ (Nat.one_le_iff_ne_zero.mpr hb)
  _ ≤ r.foldl (fun a b => a * 256 + b) b := by
        have := beNat_foldl_ge r b
        exact this
  _ = (b :: r).foldl (fun a b => a * 256 + b) 0 := by simp

theorem digits58Go_length_ge : ∀ (k : Nat) {f v : Nat},
    58 ^ k ≤ v → k < f → k + 1 ≤ (digits58Go f v).length := by
  intro k
  induction k with
  | zero =>
    intro f v hv hf
    rcases v with _ | m
    · simp at hv
    · rcases f with _ | fp
      · omega
      · simp [digits58Go]
  | succ k ih =>
    intro f v hv hf
    rcases v with _ | m
    · have : (0 : Nat) < 58 ^ (k + 1) := Nat.pos_pow_of_pos _ (by decide)
      omega
    · rcases f with _ | fp
      · omega
      · have hdiv : 58 ^ k ≤ (m + 1) / 58 := by
          rw [Nat.le_div_iff_mul_le (by decide : 0 < 58)]
          calc 58 ^ k * 58 = 58 ^ (k + 1) := by ring
          _ ≤ m + 1 := hv
        have := ih hdiv (by omega : k < fp)
        simp only [digits58Go, List.length_cons]
        omega

theorem countLeadZeros_decomp : ∀ t : List Nat,
    ∃ rest, t = List.replicate (countLeadZeros t) 0 ++ rest ∧
      (rest = [] ∨ ∃ b r, rest = b :: r ∧ b ≠ 0) ∧
      countLeadZeros t + rest.length = t.length := by
  intro t
  induction t with
  | nil => exact ⟨[], by simp [countLeadZeros]⟩
  | cons b r ih =>
    by_cases hb : b = 0
    · subst hb
      obtain ⟨rest, heq, hcase, hlen⟩ := ih
      have hc : countLeadZeros (0 :: r) = countLeadZeros r + 1 := by
        simp [countLeadZeros]
      refine ⟨rest, ?_, hcase, ?_⟩
      · rw [hc, List.replicate_succ, List.cons_append]
        exact congrArg (0 :: ·) heq
      · rw [hc]
        simp only [List.length_cons]
        omega
    · refine ⟨b :: r, ?_, Or.inr ⟨b, r, rfl, hb⟩, ?_⟩
      · simp [countLeadZeros, hb]
      · simp [countLeadZeros, hb]

/-- The bs58 text of a byte list is at least as long as the byte list; in
particular the bs58 text of a 64 byte tx id is at least 64 characters,
so taking its first 20 bytes (processor.rs line 92) cannot go out of
bounds. -/
theorem bs58Chars_length_ge (t : List Nat) : t.length ≤ (bs58Chars t).length := by
  obtain ⟨rest, heq, hcase, hlen⟩ := countLeadZeros_decomp t
  unfold bs58Chars
  simp only [List.length_append, List.length_replicate, List.length_map,
    List.length_reverse]
  rcases hcase with hnil | ⟨b, r, hrest, hb⟩
  · subst hnil
    simp only [List.length_nil] at hlen
    omega
  · subst hrest
    simp only [List.length_cons] at hlen
    have hv : 256 ^ r.length ≤ beNat t := by
      rw [heq, beNat_replicate_zero_append]
      exact beNat_cons_ge hb r
    have hv58 : 58 ^ r.length ≤ beNat t :=
      le_trans (Nat.pow_le_pow_left (by decide) _) hv
    have hf : r.length < 2 * t.length + 1 := by omega
    have := digits58Go_length_ge r.length hv58 hf
    omega

/- ---------------------------------------------------------------------
Seed text disequalities (used to keep distinct records at distinct
derived addresses in the proofs).
--------------------------------------------------------------------- -/

theorem seed_head_ne {s1 s2 : List Char} {a b : Char}
    (h1 : s1.head? = some a) (h2 : s2.head? = some b) (hab : a ≠ b) :
    s1 ≠ s2 := by
  intro h
  subst h
  rw [h1] at h2
  exact hab (Option.some.inj h2)

theorem blockchainSeed_head (cs : List Char) :
    (blockchainSeed cs).head? = some 'b' := rfl

theorem validatorSeed_head (cs : List Char) (i : Nat) :
    (validatorSeed cs i).head? = some 'v' := rfl

theorem lockSeed_head (cs : List Char) (t : List Nat) :
    (lockSeed cs t).head? = some 'l' := rfl

theorem signatureSeed_head (cs : List Char) (lid i : Nat) :
    (signatureSeed cs lid i).head? = some 's' := rfl

theorem userSeed_head (cs : List Char) : (userSeed cs).head? = some 'u' := rfl

theorem sentSeed_head (cs : List Char) (i : Nat) :
    (sentSeed cs i).head? = some 's' := rfl

theorem receivedSeed_head (cs : List Char) (i : Nat) :
    (receivedSeed cs i).head? = some 'r' := rfl

theorem blockchainSeed_ne_lockSeed (cs cs2 : List Char) (t : List Nat) :
    blockchainSeed cs ≠ lockSeed cs2 t :=
  seed_head_ne (blockchainSeed_head cs) (lockSeed_head cs2 t) (by decide)

theorem blockchainSeed_ne_signatureSeed (cs cs2 : List Char) (lid i : Nat) :
    blockchainSeed cs ≠ signatureSeed cs2 lid i :=
  seed_head_ne (blockchainSeed_head cs) (signatureSeed_head cs2 lid i) (by decide)

theorem blockchainSeed_ne_validatorSeed (cs cs2 : List Char) (i : Nat) :
    blockchainSeed cs ≠ validatorSeed cs2 i :=
  seed_head_ne (blockchainSeed_head cs) (validatorSeed_head cs2 i) (by decide)

theorem lockSeed_ne_signatureSeed (cs cs2 : List Char) (t : List Nat) (lid i : Nat) :
    lockSeed cs t ≠ signatureSeed cs2 lid i :=
  seed_head_ne (lockSeed_head cs t) (signatureSeed_head cs2 lid i) (by decide)

theorem userSeed_ne_sentSeed (cs cs2 : List Char) (i : Nat) :
    userSeed cs ≠ sentSeed cs2 i :=
  seed_head_ne (userSeed_head cs) (sentSeed_head cs2 i) (by decide)

theorem userSeed_ne_receivedSeed (cs cs2 : List Char) (i : Nat) :
    userSeed cs ≠ receivedSeed cs2 i :=
  seed_head_ne (userSeed_head cs) (receivedSeed_head cs2 i) (by decide)

theorem signatureSeed_slot_inj {cs : List Char} {lid i j : Nat}
    (h : signatureSeed cs lid i = signatureSeed cs lid j) :
    natChars i = natChars j := by
  unfold signatureSeed at h
  exact List.append_cancel_left h

theorem signatureSeed_slot0_ne_slot1 (cs : List Char) (lid : Nat) :
    signatureSeed cs lid 0 ≠ signatureSeed cs lid 1 := by
  intro h
  have := signatureSeed_slot_inj h
  exact absurd this (by decide)

/- ---------------------------------------------------------------------
A reference deployment used by several theorems: one bridge, one source
blockchain (chain id bytes given as a parameter), two validator records
owned by two different payers, one transfer (sender on the source chain,
recipient on chain BSC).  Validator records are stored at plain keys
(key 10 and key 11): process_add_signature never re-derives the
validator address, so this is accepted (claim C9).
--------------------------------------------------------------------- -/

def scPid : Pubkey := .key 100
def scBridgeK : Pubkey := .key 1
def scPayer0 : Pubkey := .key 2
def scPayer1 : Pubkey := .key 3
def scValidator0K : Pubkey := .key 10
def scValidator1K : Pubkey := .key 11
def scRentK : Pubkey := .key 200
def scRentFn : Nat → Nat := fun n => n
def scAuthK : Pubkey := .pdaOfKey scBridgeK scPid
def scSender : List Nat := List.replicate 32 2
def scRecip : List Nat := List.replicate 32 4
def scSenderAuthK : Pubkey := .pdaOfBytes scSender scPid
def scRecipAuthK : Pubkey := .pdaOfBytes scRecip scPid
def bscBytes : List Nat := [66, 83, 67, 0]
def bscChars : List Char := ['B', 'S', 'C']
def ethBytes : List Nat := [69, 84, 72, 0]
def ethChars : List Char := ['E', 'T', 'H']
def scTokenAddr : List Nat := List.replicate 32 3
def scContract : List Nat := List.replicate 32 1
def scSigBytes : List Nat := List.replicate 65 7
def scSigBytes2 : List Nat := List.replicate 65 17
def scTxId : List Nat := List.replicate 64 9

def scBlockchainK (cs : List Char) : Pubkey :=
  .createdWithSeed scAuthK (blockchainSeed cs) scPid
def scLockK (cs : List Char) (txid : List Nat) : Pubkey :=
  .createdWithSeed scAuthK (lockSeed cs txid) scPid
def scSigK (cs : List Char) (slot : Nat) : Pubkey :=
  .createdWithSeed scAuthK (signatureSeed cs 1 slot) scPid
def scSenderUserK (cs : List Char) : Pubkey :=
  .createdWithSeed scSenderAuthK (userSeed cs) scPid
def scRecipUserK : Pubkey :=
  .createdWithSeed scRecipAuthK (userSeed bscChars) scPid
def scSentK (cs : List Char) : Pubkey :=
  .createdWithSeed scSenderAuthK (sentSeed cs 0) scPid
def scRecvK : Pubkey :=
  .createdWithSeed scRecipAuthK (receivedSeed bscChars 0) scPid

/-- The stored Blockchain record of the reference deployment. -/
def scBlockchainRec (srcB : List Nat) : BlockchainRec :=
  { version := 1, bridge := scBridgeK, blockchain_id := srcB, validators := 2,
    locks := 0, contract_address := scContract }

/-- The two stored Validator records of the reference deployment. -/
def scValidatorRec0 (srcB : List Nat) : ValidatorRec :=
  { version := 1, blockchain_id := srcB, index := 0,
    pub_key := List.replicate 32 2, owner := scPayer0 }

def scValidatorRec1 (srcB : List Nat) : ValidatorRec :=
  { version := 1, blockchain_id := srcB, index := 1,
    pub_key := List.replicate 32 5, owner := scPayer1 }

/-- A wallet with plenty of lamports. -/
def scWallet : Acct :=
  { lamports := 1000000000, dlen := 0, val := .zero, owner := zeroPubkey }

/-- Deployment state before any lock exists on the source chain. -/
def scState0 (srcB : List Nat) (cs : List Char) : State :=
  updateState (updateState (updateState (updateState (updateState (updateState emptyState
    scBridgeK
      { lamports := 33, dlen := 33, val := .bridge { version := 1, owner := scPayer0 }, owner := scPid })
    (scBlockchainK cs)
      { lamports := 85, dlen := 85, val := .blockchain (scBlockchainRec srcB), owner := scPid })
    scValidator0K
      { lamports := 77, dlen := 77, val := .validator (scValidatorRec0 srcB), owner := scPid })
    scValidator1K
      { lamports := 77, dlen := 77, val := .validator (scValidatorRec1 srcB), owner := scPid })
    scPayer0 scWallet)
    scPayer1 scWallet

/-- The account list of an AddSignature call in the reference deployment,
parameterized by the validator account, the payer and the signature slot
account. -/
def scMetas (cs : List Char) (txid : List Nat) (validatorK : Pubkey)
    (sigSlotK : Pubkey) (payerK : Pubkey) : List (Pubkey × Bool) :=
  [(scBridgeK, false), (scBlockchainK cs, false), (validatorK, false),
   (scLockK cs txid, false), (sigSlotK, false), (scAuthK, false),
   (scSenderUserK cs, false), (scSenderAuthK, false), (scRecipUserK, false),
   (scRecipAuthK, false), (scSentK cs, false), (scRecvK, false),
   (payerK, true), (scRentK, false)]

/-- First AddSignature call: validator 0, signature slot 0. -/
def scRun1 (srcB : List Nat) (cs : List Char) (txid : List Nat) : RunRes :=
  processAddSignature scRentFn scPid
    (scMetas cs txid scValidator0K (scSigK cs 0) scPayer0)
    scSigBytes srcB scTokenAddr srcB txid 1 bscBytes scSender scRecip 10000
    (scState0 srcB cs)

/-- Second AddSignature call on a given state: validator 1, slot 1. -/
def scRun2 (srcB : List Nat) (cs : List Char) (txid : List Nat) (s : State) : RunRes :=
  processAddSignature scRentFn scPid
    (scMetas cs txid scValidator1K (scSigK cs 1) scPayer1)
    scSigBytes2 srcB scTokenAddr srcB txid 1 bscBytes scSender scRecip 10000 s

/- ---------------------------------------------------------------------
Generic key disequalities (constructor discrimination) and seed symmetry
variants, packaged for simp.
--------------------------------------------------------------------- -/

theorem createdWithSeed_ne_of_seed_ne {b o : Pubkey} {s1 s2 : List Char} (h : s1 ≠ s2) :
    Pubkey.createdWithSeed b s1 o ≠ Pubkey.createdWithSeed b s2 o := by
  intro he
  injection he with h1 h2 h3
  exact h h2

theorem createdWithSeed_ne_key (b : Pubkey) (sd : List Char) (o : Pubkey) (n : Nat) :
    Pubkey.createdWithSeed b sd o ≠ Pubkey.key n := fun h => Pubkey.noConfusion h

theorem key_ne_createdWithSeed (n : Nat) (b : Pubkey) (sd : List Char) (o : Pubkey) :
    Pubkey.key n ≠ Pubkey.createdWithSeed b sd o := fun h => Pubkey.noConfusion h

theorem createdWithSeed_ne_pdaOfKey (b : Pubkey) (sd : List Char) (o k p : Pubkey) :
    Pubkey.createdWithSeed b sd o ≠ Pubkey.pdaOfKey k p := fun h => Pubkey.noConfusion h

theorem pdaOfKey_ne_createdWithSeed (k p b : Pubkey) (sd : List Char) (o : Pubkey) :
    Pubkey.pdaOfKey k p ≠ Pubkey.createdWithSeed b sd o := fun h => Pubkey.noConfusion h

theorem createdWithSeed_ne_pdaOfBytes (b : Pubkey) (sd : List Char) (o : Pubkey)
    (a : List Nat) (p : Pubkey) :
    Pubkey.createdWithSeed b sd o ≠ Pubkey.pdaOfBytes a p := fun h => Pubkey.noConfusion h

theorem pdaOfBytes_ne_createdWithSeed (a : List Nat) (p b : Pubkey) (sd : List Char)
    (o : Pubkey) :
    Pubkey.pdaOfBytes a p ≠ Pubkey.createdWithSeed b sd o := fun h => Pubkey.noConfusion h

theorem key_ne_pdaOfKey (n : Nat) (k p : Pubkey) :
    Pubkey.key n ≠ Pubkey.pdaOfKey k p := fun h => Pubkey.noConfusion h

theorem pdaOfKey_ne_key (k p : Pubkey) (n : Nat) :
    Pubkey.pdaOfKey k p ≠ Pubkey.key n := fun h => Pubkey.noConfusion h

theorem key_ne_pdaOfBytes (n : Nat) (a : List Nat) (p : Pubkey) :
    Pubkey.key n ≠ Pubkey.pdaOfBytes a p := fun h => Pubkey.noConfusion h

theorem pdaOfBytes_ne_key (a : List Nat) (p : Pubkey) (n : Nat) :
    Pubkey.pdaOfBytes a p ≠ Pubkey.key n := fun h => Pubkey.noConfusion h

theorem pdaOfKey_ne_pdaOfBytes (k p : Pubkey) (a : List Nat) (q : Pubkey) :
    Pubkey.pdaOfKey k p ≠ Pubkey.pdaOfBytes a q := fun h => Pubkey.noConfusion h

theorem pdaOfBytes_ne_pdaOfKey (a : List Nat) (q k p : Pubkey) :
    Pubkey.pdaOfBytes a q ≠ Pubkey.pdaOfKey k p := fun h => Pubkey.noConfusion h

theorem lockSeed_ne_blockchainSeed (cs cs2 : List Char) (t : List Nat) :
    lockSeed cs t ≠ blockchainSeed cs2 :=
  (blockchainSeed_ne_lockSeed cs2 cs t).symm

theorem signatureSeed_ne_blockchainSeed (cs cs2 : List Char) (lid i : Nat) :
    signatureSeed cs lid i ≠ blockchainSeed cs2 :=
  (blockchainSeed_ne_signatureSeed cs2 cs lid i).symm

theorem signatureSeed_ne_lockSeed (cs cs2 : List Char) (lid i : Nat) (t : List Nat) :
    signatureSeed cs lid i ≠ lockSeed cs2 t :=
  (lockSeed_ne_signatureSeed cs2 cs t lid i).symm

theorem sentSeed_ne_userSeed (cs cs2 : List Char) (i : Nat) :
    sentSeed cs i ≠ userSeed cs2 :=
  (userSeed_ne_sentSeed cs2 cs i).symm

theorem receivedSeed_ne_userSeed (cs cs2 : List Char) (i : Nat) :
    receivedSeed cs i ≠ userSeed cs2 :=
  (userSeed_ne_receivedSeed cs2 cs i).symm

theorem signatureSeed_slot1_ne_slot0 (cs : List Char) (lid : Nat) :
    signatureSeed cs lid 1 ≠ signatureSeed cs lid 0 :=
  (signatureSeed_slot0_ne_slot1 cs lid).symm

theorem validatorSeed_ne_lockSeed (cs cs2 : List Char) (i : Nat) (t : List Nat) :
    validatorSeed cs i ≠ lockSeed cs2 t :=
  seed_head_ne (validatorSeed_head cs i) (lockSeed_head cs2 t) (by decide)

theorem lockSeed_ne_validatorSeed (cs cs2 : List Char) (t : List Nat) (i : Nat) :
    lockSeed cs t ≠ validatorSeed cs2 i :=
  (validatorSeed_ne_lockSeed cs2 cs i t).symm

theorem validatorSeed_ne_blockchainSeed (cs cs2 : List Char) (i : Nat) :
    validatorSeed cs i ≠ blockchainSeed cs2 :=
  (blockchainSeed_ne_validatorSeed cs2 cs i).symm

theorem validatorSeed_ne_signatureSeed (cs cs2 : List Char) (i lid j : Nat) :
    validatorSeed cs i ≠ signatureSeed cs2 lid j :=
  seed_head_ne (validatorSeed_head cs i) (signatureSeed_head cs2 lid j) (by decide)

theorem signatureSeed_ne_validatorSeed (cs cs2 : List Char) (lid j i : Nat) :
    signatureSeed cs lid j ≠ validatorSeed cs2 i :=
  (validatorSeed_ne_signatureSeed cs2 cs i lid j).symm

theorem utf8Len_sentSeed0_le {cs : List Char} (h : utf8Len cs ≤ 4) :
    utf8Len (sentSeed cs 0) ≤ 11 := by
  unfold sentSeed
  rw [utf8Len_append, utf8Len_append, utf8Len_append]
  have h1 : utf8Len "sent_".data = 5 := by decide
  have h2 : utf8Len "_".data = 1 := by decide
  have h3 : utf8Len (natChars 0) = 1 := by decide
  omega

theorem utf8Len_receivedSeed0_le {cs : List Char} (h : utf8Len cs ≤ 4) :
    utf8Len (receivedSeed cs 0) ≤ 15 := by
  unfold receivedSeed
  rw [utf8Len_append, utf8Len_append, utf8Len_append]
  have h1 : utf8Len "received_".data = 9 := by decide
  have h2 : utf8Len "_".data = 1 := by decide
  have h3 : utf8Len (natChars 0) = 1 := by decide
  omega

theorem utf8Len_signatureSeed_small_le {cs : List Char} (h : utf8Len cs ≤ 4)
    {i : Nat} (hi : utf8Len (natChars i) ≤ 2) :
    utf8Len (signatureSeed cs 1 i) ≤ 25 := by
  unfold signatureSeed
  rw [utf8Len_append, utf8Len_append, utf8Len_append, utf8Len_append, utf8Len_append]
  have h1 : utf8Len "signature_lock_".data = 15 := by decide
  have h2 : utf8Len "_".data = 1 := by decide
  have h3 : utf8Len (natChars 1) = 1 := by decide
  omega

/-- The Lock record created by the first submission of the reference
transfer, with signature count n. -/
def scLockRecN (srcB : List Nat) (txid : List Nat) (n : Nat) : LockRec :=
  { version := 1
    index := 0
    lock_id := 1
    tx_id := txid
    bridge := scBridgeK
    token_source_address := scTokenAddr
    token_source := srcB
    source := srcB
    sender := scSender
    recipient := scRecip
    destination := bscBytes
    amount := 10000
    signatures := n }

/-- Reference deployment with an existing Lock record L already stored at
the derived lock address. -/
def scStateL (srcB : List Nat) (cs : List Char) (txid : List Nat) (L : LockRec) : State :=
  updateState (scState0 srcB cs) (scLockK cs txid)
    { lamports := 237, dlen := 237, val := .lock L, owner := scPid }

/-- A repeat AddSignature submission against the stored Lock L, with the
claimed transfer fields given as parameters (the stored fields live in L;
the caller claims lock id 1 and supplies the next-slot signature
account).  Validator 0 signs. -/
def scRunRepeat (srcB : List Nat) (cs : List Char) (txid : List Nat) (L : LockRec)
    (tokS tokSA dst snd rcp : List Nat) (amt : Nat) : RunRes :=
  processAddSignature scRentFn scPid
    (scMetas cs txid scValidator0K (scSigK cs L.signatures) scPayer0)
    scSigBytes tokS tokSA srcB txid 1 dst snd rcp amt
    (scStateL srcB cs txid L)

/-- A second submission by the SAME validator 0 (same payer) on a given
state, supplying the slot 1 signature account. -/
def scRun2Same (srcB : List Nat) (cs : List Char) (txid : List Nat)
    (sigB : List Nat) (s : State) : RunRes :=
  processAddSignature scRentFn scPid
    (scMetas cs txid scValidator0K (scSigK cs 1) scPayer0)
    sigB srcB scTokenAddr srcB txid 1 bscBytes scSender scRecip 10000 s

/-- C3: for all (source_chain, tx_id) (the source chain given as any
4-byte id that decodes, the tx id as any byte list), two successive
AddSignature calls with identical transfer fields but different
validators both succeed against the same derived Lock account
(scLockK cs txid supplied to, and accepted by, both calls), the first
leaves signatures = 1 and the second signatures = 2, the second call
leaves the sender and recipient User accounts and both transfer-leg
accounts exactly as the first call left them (no new user legs), and the
second Signature record lands at an address distinct from the first. -/
theorem C3_second_validator_same_transfer (srcB : List Nat) (cs : List Char)
    (txid : List Nat)
    (hc : chain_id_to_str srcB = Except.ok cs) (hlen : utf8Len cs ≤ 4) :
    (scRun1 srcB cs txid).isOk = true ∧
    (scRun2 srcB cs txid (scRun1 srcB cs txid).stateOf).isOk = true ∧
    parseLock ((scRun1 srcB cs txid).stateOf (scLockK cs txid)) =
      Except.ok (scLockRecN srcB txid 1) ∧
    parseLock ((scRun2 srcB cs txid (scRun1 srcB cs txid).stateOf).stateOf (scLockK cs txid)) =
      Except.ok (scLockRecN srcB txid 2) ∧
    (scRun2 srcB cs txid (scRun1 srcB cs txid).stateOf).stateOf (scSenderUserK cs) =
      (scRun1 srcB cs txid).stateOf (scSenderUserK cs) ∧
    (scRun2 srcB cs txid (scRun1 srcB cs txid).stateOf).stateOf scRecipUserK =
      (scRun1 srcB cs txid).stateOf scRecipUserK ∧
    (scRun2 srcB cs txid (scRun1 srcB cs txid).stateOf).stateOf (scSentK cs) =
      (scRun1 srcB cs txid).stateOf (scSentK cs) ∧
    (scRun2 srcB cs txid (scRun1 srcB cs txid).stateOf).stateOf scRecvK =
      (scRun1 srcB cs txid).stateOf scRecvK ∧
    scSigK cs 1 ≠ scSigK cs 0 := by
  have hl32 : ¬ (32 < utf8Len (lockSeed cs txid)) :=
    Nat.not_lt.mpr (le_trans (utf8Len_lockSeed_le hlen txid) (by decide))
  have hu32 : ¬ (32 < utf8Len (userSeed cs)) :=
    Nat.not_lt.mpr (le_trans (utf8Len_userSeed_le hlen) (by decide))
  have hs32 : ¬ (32 < utf8Len (sentSeed cs 0)) :=
    Nat.not_lt.mpr (le_trans (utf8Len_sentSeed0_le hlen) (by decide))
  have hg32 : ¬ (32 < utf8Len (signatureSeed cs 1 0)) :=
    Nat.not_lt.mpr (le_trans (utf8Len_signatureSeed_small_le hlen (by decide)) (by decide))
  have hc2 : chain_id_to_str bscBytes = Except.ok bscChars := by decide
  simp +decide only [scRun1, scRun2, processAddSignature, get_or_create_user_data,
    create_sent_lock_account, create_received_lock_account,
    scMetas, scState0, scBlockchainRec, scValidatorRec0, scValidatorRec1, scWallet,
    List.length_cons, List.length_nil, List.getD, List.get?, Option.getD,
    dataIsEmpty, updateState_same, updateState_apply,
    parseBridge, parseBlockchain, parseValidator, parseLock, parseUser,
    validate_bridge_authority, validate_user_address_authority,
    check_and_get_lock_account_seed, check_and_get_signature_account_seed,
    check_and_get_user_account_seed, check_and_get_sent_lock_account_seed,
    check_and_get_received_lock_account_seed,
    checkSeedAgainst, createWithSeed, allocateAccount, storeAt, storeVal, liftE,
    RunRes.isOk, RunRes.stateOf, reduceIte, Bind.bind, Except.instMonad, Except.bind,
    emptyState, ne_eq,
    scSigK, scLockK, scBlockchainK, scSenderUserK, scRecipUserK, scSentK, scRecvK,
    scSenderAuthK, scRecipAuthK, scAuthK, scPayer0, scPayer1, scValidator0K,
    scValidator1K, scBridgeK, scRentK,
    hc, hc2, hl32, hu32, hs32, hg32,
    (Nat.not_lt.mpr (le_trans (utf8Len_signatureSeed_small_le hlen (by decide : utf8Len (natChars 1) ≤ 2)) (by decide)) : ¬ 32 < utf8Len (signatureSeed cs 1 1)),
    createdWithSeed_ne_key, key_ne_createdWithSeed, createdWithSeed_ne_pdaOfKey,
    pdaOfKey_ne_createdWithSeed, createdWithSeed_ne_pdaOfBytes,
    pdaOfBytes_ne_createdWithSeed, key_ne_pdaOfKey, pdaOfKey_ne_key,
    key_ne_pdaOfBytes, pdaOfBytes_ne_key, pdaOfKey_ne_pdaOfBytes,
    pdaOfBytes_ne_pdaOfKey,
    Pubkey.createdWithSeed.injEq, Pubkey.pdaOfBytes.injEq, Pubkey.pdaOfKey.injEq,
    Pubkey.key.injEq,
    blockchainSeed_ne_lockSeed, lockSeed_ne_blockchainSeed,
    blockchainSeed_ne_signatureSeed, signatureSeed_ne_blockchainSeed,
    lockSeed_ne_signatureSeed, signatureSeed_ne_lockSeed,
    userSeed_ne_sentSeed, sentSeed_ne_userSeed,
    userSeed_ne_receivedSeed, receivedSeed_ne_userSeed,
    signatureSeed_slot0_ne_slot1, signatureSeed_slot1_ne_slot0,
    UserRec.new, LockTxRec.new, LockRec.new, SignatureRec.new, scLockRecN,
    PROGRAM_VERSION, Nat.reduceAdd,
    decide_eq_true_eq, false_and, and_true, true_and, and_false, not_false_iff,
    not_true]

/-- Witness for C3 at the concrete chain ETH and tx id 9...9. -/
theorem C3_second_validator_same_transfer_witness :
    chain_id_to_str ethBytes = Except.ok ethChars ∧ utf8Len ethChars ≤ 4 ∧
    (scRun1 ethBytes ethChars scTxId).isOk = true :=
  ⟨by decide, by decide,
    (C3_second_validator_same_transfer ethBytes ethChars scTxId (by decide) (by decide)).1⟩

/-- C1 counterexample: in the reference deployment, a Lock for
(ETH, tx 9...9) is stored with amount 10000; resubmitting the same
(source, tx id) with the claimed amount altered to 9999 does NOT fail
with InvalidArgument: the call succeeds (process_add_signature performs
no field comparison on the repeat path), refuting the claim. -/
theorem C1_cex_mismatched_amount_accepted :
    (scLockRecN ethBytes scTxId 1).amount = 10000 ∧
    (scRunRepeat ethBytes ethChars scTxId (scLockRecN ethBytes scTxId 1)
      ethBytes scTokenAddr bscBytes scSender scRecip 9999).isOk = true := by
  constructor
  · decide
  · decide

/-- C1 amended: on a repeat submission for an existing initialized Lock,
process_add_signature never compares the claimed fields with the stored
record: for EVERY combination of claimed token source, token source
address, destination, sender, recipient and amount (matching or not),
the call succeeds, and the stored Lock keeps every immutable field
unchanged with only signatures incremented. -/
theorem C1_amended_no_field_check_on_repeat (L : LockRec) (hv : L.version = 1)
    (hseed : utf8Len (signatureSeed ethChars 1 L.signatures) ≤ 32)
    (tokS tokSA dst snd rcp : List Nat) (amt : Nat) :
    (scRunRepeat ethBytes ethChars scTxId L tokS tokSA dst snd rcp amt).isOk = true ∧
    parseLock ((scRunRepeat ethBytes ethChars scTxId L tokS tokSA dst snd rcp amt).stateOf
        (scLockK ethChars scTxId)) =
      Except.ok { L with signatures := L.signatures + 1 } := by
  have h1 : scAuthK.createdWithSeed (signatureSeed ethChars 1 L.signatures) scPid ≠
      scAuthK.createdWithSeed (lockSeed ethChars scTxId) scPid :=
    createdWithSeed_ne_of_seed_ne
      (fun h => lockSeed_ne_signatureSeed ethChars ethChars scTxId 1 L.signatures h.symm)
  have h1s : scAuthK.createdWithSeed (lockSeed ethChars scTxId) scPid ≠
      scAuthK.createdWithSeed (signatureSeed ethChars 1 L.signatures) scPid := h1.symm
  have h2 : scAuthK.createdWithSeed (signatureSeed ethChars 1 L.signatures) scPid ≠
      scAuthK.createdWithSeed (blockchainSeed ethChars) scPid :=
    createdWithSeed_ne_of_seed_ne
      (fun h => blockchainSeed_ne_signatureSeed ethChars ethChars 1 L.signatures h.symm)
  have hc : chain_id_to_str ethBytes = Except.ok ethChars := by decide
  have hs32 : ¬ (32 < utf8Len (signatureSeed ethChars 1 L.signatures)) := Nat.not_lt.mpr hseed
  simp +decide only [scRunRepeat, processAddSignature, scMetas, scStateL, scState0,
    List.length_cons, List.length_nil, List.getD, List.get?, Option.getD, dataIsEmpty,
    updateState_same, updateState_apply, parseBridge, parseBlockchain, parseValidator,
    parseLock, parseUser, validate_bridge_authority,
    check_and_get_lock_account_seed, check_and_get_signature_account_seed,
    checkSeedAgainst, createWithSeed, allocateAccount, storeAt,
    storeVal, liftE, scBlockchainRec, scValidatorRec0, scWallet, RunRes.isOk,
    RunRes.stateOf,
    h1, h1s, h2, hc, hv, hs32,
    createdWithSeed_ne_key, key_ne_createdWithSeed,
    scPayer0, scPayer1, scValidator0K, scValidator1K, scBridgeK, scRentK,
    scSigK, scLockK, scBlockchainK, reduceIte, Bind.bind, Except.instMonad, Except.bind,
    Option.getD, emptyState, ne_eq, not_false_iff]

/-- Witness for the amended C1: the stored Lock of the reference transfer
with a mismatched claimed amount 9999. -/
theorem C1_amended_no_field_check_on_repeat_witness :
    (scLockRecN ethBytes scTxId 1).version = 1 ∧
    utf8Len (signatureSeed ethChars 1 (scLockRecN ethBytes scTxId 1).signatures) ≤ 32 ∧
    (scRunRepeat ethBytes ethChars scTxId (scLockRecN ethBytes scTxId 1)
      ethBytes scTokenAddr bscBytes scSender scRecip 9999).isOk = true :=
  ⟨by decide, by decide,
    (C1_amended_no_field_check_on_repeat (scLockRecN ethBytes scTxId 1) (by decide)
      (by decide) ethBytes scTokenAddr bscBytes scSender scRecip 9999).1⟩

/-- C2 counterexample: after validator 0 has already signed the
reference lock (its Signature record sits at slot 0 and names validator
account key 10), a SECOND AddSignature by the same validator identity
(same validator account, same payer) for the same (source_chain,
lock_id) does NOT fail: supplied with the next-slot signature account it
succeeds and increments Lock.signatures to 2.  The signature address is
derived from the current signature count, not from a validator index, so
no slot collision stops the double signing. -/
theorem C2_cex_double_signing_accepted :
    ((scRun1 ethBytes ethChars scTxId).stateOf (scSigK ethChars 0)).val =
      .signature { version := 1, index := 0, bridge := scBridgeK,
                   signature := scSigBytes, validator := scValidator0K } ∧
    (scRun2Same ethBytes ethChars scTxId scSigBytes2
      (scRun1 ethBytes ethChars scTxId).stateOf).isOk = true ∧
    parseLock ((scRun2Same ethBytes ethChars scTxId scSigBytes2
        (scRun1 ethBytes ethChars scTxId).stateOf).stateOf (scLockK ethChars scTxId)) =
      Except.ok (scLockRecN ethBytes scTxId 2) := by
  refine ⟨by decide, by decide, by decide⟩

/-- C2 amended: a second AddSignature from the same validator identity
for the same (source_chain, lock_id) is accepted, for any submitted
signature bytes: the Signature address is slotted by the current
signature count of the Lock, so the repeat lands in the fresh next slot,
a second Signature record naming the SAME validator account is written,
and Lock.signatures is incremented to 2. -/
theorem C2_amended_double_signing_increments (sigB : List Nat) :
    ((scRun1 ethBytes ethChars scTxId).stateOf (scSigK ethChars 0)).val =
      .signature { version := 1, index := 0, bridge := scBridgeK,
                   signature := scSigBytes, validator := scValidator0K } ∧
    (scRun2Same ethBytes ethChars scTxId sigB
      (scRun1 ethBytes ethChars scTxId).stateOf).isOk = true ∧
    ((scRun2Same ethBytes ethChars scTxId sigB
        (scRun1 ethBytes ethChars scTxId).stateOf).stateOf (scSigK ethChars 1)).val =
      .signature { version := 1, index := 1, bridge := scBridgeK,
                   signature := sigB, validator := scValidator0K } ∧
    parseLock ((scRun2Same ethBytes ethChars scTxId sigB
        (scRun1 ethBytes ethChars scTxId).stateOf).stateOf (scLockK ethChars scTxId)) =
      Except.ok (scLockRecN ethBytes scTxId 2) := by
  have hc : chain_id_to_str ethBytes = Except.ok ethChars := by decide
  have hc2 : chain_id_to_str bscBytes = Except.ok bscChars := by decide
  refine ⟨by decide, ?_, ?_, ?_⟩ <;>
  simp +decide only [hc, hc2, scRun1, scRun2Same, processAddSignature, get_or_create_user_data,
    create_sent_lock_account, create_received_lock_account,
    scMetas, scState0, scBlockchainRec, scValidatorRec0, scValidatorRec1, scWallet,
    List.length_cons, List.length_nil, List.getD, List.get?, Option.getD,
    dataIsEmpty, updateState_same, updateState_apply,
    parseBridge, parseBlockchain, parseValidator, parseLock, parseUser,
    validate_bridge_authority, validate_user_address_authority,
    check_and_get_lock_account_seed, check_and_get_signature_account_seed,
    check_and_get_user_account_seed, check_and_get_sent_lock_account_seed,
    check_and_get_received_lock_account_seed,
    checkSeedAgainst, createWithSeed, allocateAccount, storeAt, storeVal, liftE,
    RunRes.isOk, RunRes.stateOf, reduceIte, Bind.bind, Except.instMonad, Except.bind,
    emptyState, ne_eq,
    scSigK, scLockK, scBlockchainK, scSenderUserK, scRecipUserK, scSentK, scRecvK,
    scSenderAuthK, scRecipAuthK, scAuthK, scPayer0, scPayer1, scValidator0K,
    scValidator1K, scBridgeK, scRentK,
    createdWithSeed_ne_key, key_ne_createdWithSeed, createdWithSeed_ne_pdaOfKey,
    pdaOfKey_ne_createdWithSeed, createdWithSeed_ne_pdaOfBytes,
    pdaOfBytes_ne_createdWithSeed, key_ne_pdaOfKey, pdaOfKey_ne_key,
    key_ne_pdaOfBytes, pdaOfBytes_ne_key, pdaOfKey_ne_pdaOfBytes,
    pdaOfBytes_ne_pdaOfKey,
    Pubkey.createdWithSeed.injEq, Pubkey.pdaOfBytes.injEq, Pubkey.pdaOfKey.injEq,
    Pubkey.key.injEq,
    blockchainSeed_ne_lockSeed, lockSeed_ne_blockchainSeed,
    blockchainSeed_ne_signatureSeed, signatureSeed_ne_blockchainSeed,
    lockSeed_ne_signatureSeed, signatureSeed_ne_lockSeed,
    userSeed_ne_sentSeed, sentSeed_ne_userSeed,
    userSeed_ne_receivedSeed, receivedSeed_ne_userSeed,
    signatureSeed_slot0_ne_slot1, signatureSeed_slot1_ne_slot0,
    UserRec.new, LockTxRec.new, LockRec.new, SignatureRec.new, scLockRecN,
    PROGRAM_VERSION, Nat.reduceAdd,
    decide_eq_true_eq, false_and, and_true, true_and, and_false, not_false_iff,
    not_true]

/-- An all-zero tx id and one differing in its last byte: their bs58
texts are 64 ones versus 63 ones followed by a 2, which agree on the
first 20 characters, so the lock seeds coincide. -/
def c4TxA : List Nat := List.replicate 64 0
def c4TxB : List Nat := List.replicate 63 0 ++ [1]

/-- C4 counterexample: the map from (source chain id, tx id) to the
derived Lock address is NOT injective.  The two distinct tx ids c4TxA
and c4TxB yield the same seed on the same source chain, so
check_and_get_lock_account_seed accepts the SAME lock account for both
submissions: two distinct (source, tx id) pairs resolve to one Lock
record, refuting the injectivity half of the claim. -/
theorem C4_cex_lock_address_collision :
    c4TxA ≠ c4TxB ∧
    check_and_get_lock_account_seed scPid ethBytes c4TxA scAuthK (scLockK ethChars c4TxA) =
      .ok (lockSeed ethChars c4TxA) ∧
    check_and_get_lock_account_seed scPid ethBytes c4TxB scAuthK (scLockK ethChars c4TxA) =
      .ok (lockSeed ethChars c4TxB) := by
  refine ⟨by decide, by decide, by decide⟩

/-- C4 amended: the derived Lock address is a function of (source chain
id, tx id) alone -- any account the seed check accepts IS the address
derived from the decoded chain text and the tx id, so a resubmission
with the same pair always resolves to the same record -- but the map is
not injective: distinct tx ids whose bs58 texts share their first twenty
characters (and likewise distinct chain ids that decode to the same
trimmed text) collide on one Lock address. -/
theorem C4_amended_lock_address_function_not_injective :
    (∀ (pid auth k : Pubkey) (srcB t : List Nat) (st : List Char),
       check_and_get_lock_account_seed pid srcB t auth k = .ok st →
       ∃ cs, chain_id_to_str srcB = .ok cs ∧ st = lockSeed cs t ∧
         k = .createdWithSeed auth (lockSeed cs t) pid) ∧
    (∃ t1 t2 : List Nat, t1 ≠ t2 ∧
       Pubkey.createdWithSeed scAuthK (lockSeed ethChars t1) scPid =
         Pubkey.createdWithSeed scAuthK (lockSeed ethChars t2) scPid) := by
  constructor
  · intro pid auth k srcB t st h
    unfold check_and_get_lock_account_seed checkSeedAgainst createWithSeed at h
    cases hcs : chain_id_to_str srcB with
    | error e => rw [hcs] at h; exact absurd h (by simp [Bind.bind, Except.bind])
    | ok cs =>
      rw [hcs] at h
      refine ⟨cs, rfl, ?_⟩
      simp only [Bind.bind, Except.bind] at h
      by_cases hl : 32 < utf8Len (lockSeed cs t)
      · rw [if_pos hl] at h
        exact absurd h (by simp)
      · rw [if_neg hl] at h
        split at h
        · rename_i err heq
          exact absurd heq (by simp)
        · rename_i v heq
          injection heq with hv
          subst hv
          split at h
          · rename_i hk
            injection h with he
            exact ⟨he.symm, hk.symm⟩
          · exact absurd h (by simp)
  · exact ⟨c4TxA, c4TxB, by decide, by decide⟩

/-- Wire encoding of the reference AddSignature instruction: tag 3, then
the fields of the instruction revision in src/src/instruction.rs in
declaration order (signature, token source, token source address,
source, lock id, tx id, destination, sender, recipient, amount, revert). -/
def c7Input : List Nat :=
  [3] ++ List.replicate 65 7 ++ ethBytes ++ List.replicate 32 3 ++ ethBytes ++
  [1,0,0,0,0,0,0,0] ++ List.replicate 64 9 ++ bscBytes ++ List.replicate 32 2 ++
  List.replicate 32 4 ++ [16,39,0,0,0,0,0,0] ++ [0]

/-- The reference account list with a WRONG recipient user authority
(key 99): the call fails midway, after the lock account has already been
allocated and the blockchain lock counter persisted. -/
def c7Metas : List (Pubkey × Bool) :=
  [(scBridgeK, false), (scBlockchainK ethChars, false), (scValidator0K, false),
   (scLockK ethChars scTxId, false), (scSigK ethChars 0, false), (scAuthK, false),
   (scSenderUserK ethChars, false), (scSenderAuthK, false), (scRecipUserK, false),
   (Pubkey.key 99, false), (scSentK ethChars, false), (scRecvK, false),
   (scPayer0, true), (scRentK, false)]

/-- C7: under the host transaction boundary (processInstructionTx,
modelled from the specification of the host as an all-or-nothing step),
every operation either commits all of its record mutations or none: on
success the fully mutated state commits, on ANY error the pre-state is
returned untouched together with the typed error.  The second conjunct
shows the boundary is doing real work on this code: there is an input
(c7Input with c7Metas) on which the raw core fails midway having already
allocated the Lock account (partial effect, a 237 byte buffer), while
the wrapped operation surfaces the error and leaves the Lock address
empty. -/
theorem C7_all_or_nothing_per_operation :
    (∀ (rent : Nat → Nat) (pid : Pubkey) (metas : List (Pubkey × Bool))
       (input : List Nat) (s : State),
       (∃ s2, processInstruction rent pid metas input s = .ok s2 ∧
          processInstructionTx rent pid metas input s = (none, s2)) ∨
       (∃ e sPart, processInstruction rent pid metas input s = .fail e sPart ∧
          processInstructionTx rent pid metas input s = (some e, s))) ∧
    (processInstruction scRentFn scPid c7Metas c7Input (scState0 ethBytes ethChars)).isOk
        = false ∧
    ((processInstruction scRentFn scPid c7Metas c7Input
        (scState0 ethBytes ethChars)).stateOf (scLockK ethChars scTxId)).dlen = 237 ∧
    (processInstructionTx scRentFn scPid c7Metas c7Input (scState0 ethBytes ethChars)).1
        = some .invalidSeeds ∧
    (processInstructionTx scRentFn scPid c7Metas c7Input
        (scState0 ethBytes ethChars)).2 (scLockK ethChars scTxId) = emptyAcct := by
  refine ⟨?_, by decide, by decide, by decide, by decide⟩
  intro rent pid metas input s
  cases h : processInstruction rent pid metas input s with
  | ok s2 => exact Or.inl ⟨s2, rfl, by simp [processInstructionTx, h]⟩
  | fail e sPart => exact Or.inr ⟨e, sPart, rfl, by simp [processInstructionTx, h]⟩

/-- C8: process_instruction returns typed errors rather than crashing.
In this embedding every operation is a total function, and the three
genuinely partial operations of the Rust source are accounted for:
(1) any input whose borsh decoding fails is answered with
InvalidInstructionData and no state change; (2) chain id bytes that are
not valid UTF-8 are answered with InvalidArgument by the codec (the
error every seed check propagates); (3) the one panicking slice in the
source, bs58(tx_id)[..20] in the lock seed, is always in bounds: the
bs58 text of a 64 byte tx id has at least 64 >= 20 ASCII characters.
(Counter increments are modelled on Nat; u64 wraparound needs 2^64
prior operations and is unreachable.) -/
theorem C8_malformed_input_typed_errors :
    (∀ (rent : Nat → Nat) (pid : Pubkey) (metas : List (Pubkey × Bool))
       (input : List Nat) (s : State),
       decodeInstruction input = none →
       processInstruction rent pid metas input s = .fail .invalidInstructionData s) ∧
    (∀ bs : List Nat, utf8Decode bs = none →
       chain_id_to_str bs = .error .invalidArgument) ∧
    (∀ t : List Nat, t.length = 64 → 20 ≤ (bs58Chars t).length) := by
  refine ⟨?_, ?_, ?_⟩
  · intro rent pid metas input s h
    simp [processInstruction, h]
  · intro bs h
    simp [chain_id_to_str, h]
  · intro t h
    have := bs58Chars_length_ge t
    omega

/-- Witness for C8: a bad tag byte is rejected as InvalidInstructionData,
invalid UTF-8 chain bytes yield InvalidArgument, and the all-zero tx id
has a 64 character bs58 text. -/
theorem C8_malformed_input_typed_errors_witness :
    processInstruction scRentFn scPid [] [255] emptyState =
      .fail .invalidInstructionData emptyState ∧
    chain_id_to_str [255, 255, 255, 255] = .error .invalidArgument ∧
    20 ≤ (bs58Chars (List.replicate 64 0)).length :=
  ⟨C8_malformed_input_typed_errors.1 scRentFn scPid [] [255] emptyState (by decide),
   C8_malformed_input_typed_errors.2.1 [255, 255, 255, 255] (by decide),
   C8_malformed_input_typed_errors.2.2 (List.replicate 64 0) (by decide)⟩

/-- Witness for the amended C4: the accepted lock account for
(ETH, c4TxA) is exactly the address derived from the decoded chain text
and the tx id. -/
theorem C4_amended_lock_address_function_not_injective_witness :
    ∃ cs, chain_id_to_str ethBytes = Except.ok cs ∧
      lockSeed ethChars c4TxA = lockSeed cs c4TxA ∧
      scLockK ethChars c4TxA = .createdWithSeed scAuthK (lockSeed cs c4TxA) scPid :=
  C4_amended_lock_address_function_not_injective.1 scPid scAuthK
    (scLockK ethChars c4TxA) ethBytes c4TxA (lockSeed ethChars c4TxA) (by decide)

theorem parseBlockchain_ok_dlen {a : Acct} {bc : BlockchainRec}
    (h : parseBlockchain a = .ok bc) : a.dlen = BlockchainRec.LEN := by
  unfold parseBlockchain at h
  split at h
  · exact absurd h (by simp)
  · omega

/-- One AddValidator call in the reference deployment: bridge account
key 1, its derived authority, a caller-chosen blockchain account bK,
validator account vK and payer. -/
def addValidatorCall (chain pk : List Nat) (bK vK payerK : Pubkey) (s : State) : RunRes :=
  processAddValidator scRentFn scPid
    [(scBridgeK, false), (bK, false), (vK, false), (payerK, true), (scAuthK, false),
     (scRentK, false)] chain pk s

/-- Inversion of one successful AddValidator: the supplied validator
account must be the address derived from (chain, current validators
count), and afterwards the Blockchain record holds validators + 1. -/
theorem addValidator_step_inv {chain pk : List Nat} {bK vK payerK : Pubkey}
    {s s2 : State} {bc : BlockchainRec}
    (hbc : parseBlockchain (s bK) = .ok bc) (hv : bc.version = 1)
    (hok : addValidatorCall chain pk bK vK payerK s = .ok s2) :
    (∃ cs, chain_id_to_str chain = .ok cs ∧
       vK = .createdWithSeed scAuthK (validatorSeed cs bc.validators) scPid) ∧
    parseBlockchain (s2 bK) = .ok { bc with validators := bc.validators + 1 } := by
  unfold addValidatorCall processAddValidator at hok
  simp +decide only [List.length_cons, List.length_nil, List.getD, List.get?, Option.getD,
    hbc, hv, PROGRAM_VERSION, reduceIte, validate_bridge_authority, scAuthK,
    check_and_get_validator_account_seed, checkSeedAgainst, createWithSeed,
    Bind.bind, Except.bind, allocateAccount, storeAt, storeVal, not_true,
    ne_eq, decide_eq_true_eq, Nat.reduceAdd] at hok
  cases hcs : chain_id_to_str chain with
  | error e => rw [hcs] at hok; exact absurd hok (by simp)
  | ok cs =>
    rw [hcs] at hok
    dsimp only at hok
    by_cases h32 : 32 < utf8Len (validatorSeed cs bc.validators)
    · rw [if_pos h32] at hok
      exact absurd hok (by simp)
    · rw [if_neg h32] at hok
      dsimp only at hok
      by_cases hkey : (scBridgeK.pdaOfKey scPid).createdWithSeed
          (validatorSeed cs bc.validators) scPid = vK
      · rw [if_pos hkey] at hok
        dsimp only at hok
        rw [if_neg h32] at hok
        dsimp only at hok
        rw [if_neg (not_not_intro hkey)] at hok
        by_cases hocc : ¬ (s vK).lamports = 0 ∨ ¬ (s vK).dlen = 0 ∨
            ¬ (s vK).owner = zeroPubkey
        · rw [if_pos hocc] at hok
          exact absurd hok (by simp)
        · rw [if_neg hocc] at hok
          by_cases hfund : (s payerK).lamports < scRentFn ValidatorRec.LEN
          · rw [if_pos hfund] at hok
            exact absurd hok (by simp)
          · rw [if_neg hfund] at hok
            dsimp only at hok
            push_neg at hocc
            have hdb : (s bK).dlen = BlockchainRec.LEN := parseBlockchain_ok_dlen hbc
            have hne : bK ≠ vK := by
              intro he
              rw [he] at hdb
              rw [hocc.2.1] at hdb
              exact absurd hdb (by decide)
            rw [updateState_other _ _ _ _ hne] at hok
            refine ⟨⟨cs, rfl, hkey.symm⟩, ?_⟩
            by_cases hpb : bK = payerK
            · rw [hpb, updateState_same] at hok
              rw [← hpb] at hok
              dsimp only at hok
              rw [if_neg (by rw [hdb]; decide)] at hok
              dsimp only at hok
              rw [updateState_other _ _ _ _ (Ne.symm hne), updateState_same] at hok
              rw [if_neg (by decide)] at hok
              dsimp only at hok
              injection hok with hs2
              subst hs2
              rw [updateState_other _ _ _ _ hne, updateState_same]
              unfold parseBlockchain
              simp only [BlockchainRec.LEN, reduceIte]
              rw [← hv]
              rw [if_neg (show ¬ ((s bK).dlen ≠ 85) by rw [hdb]; decide)]
            · rw [updateState_other _ _ _ _ hpb] at hok
              rw [if_neg (by rw [hdb]; decide)] at hok
              dsimp only at hok
              rw [updateState_other _ _ _ _ (Ne.symm hne), updateState_same] at hok
              rw [if_neg (by decide)] at hok
              dsimp only at hok
              injection hok with hs2
              subst hs2
              rw [updateState_other _ _ _ _ hne, updateState_same]
              unfold parseBlockchain
              simp only [BlockchainRec.LEN, reduceIte]
              rw [← hv]
              rw [if_neg (show ¬ ((s bK).dlen ≠ 85) by rw [hdb]; decide)]
      · rw [if_neg hkey] at hok
        exact absurd hok (by simp)

/-- A sequence of AddValidator calls, one per supplied validator account
key, aborting at the first failure. -/
def registerSeq (chain pk : List Nat) (bK payerK : Pubkey) : List Pubkey → State → RunRes
  | [], s => .ok s
  | vK :: rest, s =>
    match addValidatorCall chain pk bK vK payerK s with
    | .ok s2 => registerSeq chain pk bK payerK rest s2
    | .fail e s2 => .fail e s2

theorem registerSeq_inv {chain pk : List Nat} {bK payerK : Pubkey} :
    ∀ {keys : List Pubkey} {s sN : State} {bc : BlockchainRec},
    parseBlockchain (s bK) = .ok bc → bc.version = 1 →
    registerSeq chain pk bK payerK keys s = .ok sN →
    (∀ i (hi : i < keys.length), ∃ cs, chain_id_to_str chain = .ok cs ∧
       keys.get ⟨i, hi⟩ = .createdWithSeed scAuthK (validatorSeed cs (bc.validators + i)) scPid) ∧
    parseBlockchain (sN bK) = .ok { bc with validators := bc.validators + keys.length } := by
  intro keys
  induction keys with
  | nil =>
    intro s sN bc hbc hv hok
    refine ⟨fun i hi => absurd hi (by simp), ?_⟩
    injection hok with he
    subst he
    simpa using hbc
  | cons vK rest ih =>
    intro s sN bc hbc hv hok
    unfold registerSeq at hok
    cases hstep : addValidatorCall chain pk bK vK payerK s with
    | fail e s2 => rw [hstep] at hok; exact absurd hok (by simp)
    | ok s2 =>
      rw [hstep] at hok
      obtain ⟨⟨cs, hcs, hvK⟩, hbc2⟩ := addValidator_step_inv hbc hv hstep
      obtain ⟨hkeys, hfinal⟩ := ih hbc2 hv hok
      constructor
      · intro i hi
        cases i with
        | zero => exact ⟨cs, hcs, by simpa using hvK⟩
        | succ j =>
          have hj : j < rest.length := by simpa using Nat.lt_of_succ_lt_succ hi
          obtain ⟨cs2, hcs2, hkey⟩ := hkeys j hj
          refine ⟨cs2, hcs2, ?_⟩
          have hget : (vK :: rest).get ⟨j + 1, hi⟩ = rest.get ⟨j, hj⟩ := rfl
          rw [hget, hkey]
          have harith : ({ bc with validators := bc.validators + 1 } : BlockchainRec).validators + j
              = bc.validators + (j + 1) := by
            show bc.validators + 1 + j = bc.validators + (j + 1)
            omega
          rw [harith]
      · rw [hfinal]
        have harith : ({ bc with validators := bc.validators + 1 } : BlockchainRec).validators + rest.length
            = bc.validators + (vK :: rest).length := by
          show bc.validators + 1 + rest.length = bc.validators + (rest.length + 1)
          omega
        rw [harith]

/-- C5: on one initialized Blockchain (validators = 0 at the start), any
sequence of n successful AddValidator calls must have supplied, at its
i-th step, exactly the validator address derived from (chain_id, i) --
the call reads Blockchain.validators as the next index and rejects any
other address -- and afterwards the stored Blockchain has
validators = n; and on a Blockchain account holding a record that is not
initialized (version differing from the current one) the call fails
with UninitializedAccount. -/
theorem C5_validator_counter_address_coupling (chain pk : List Nat)
    (bK payerK : Pubkey) (keys : List Pubkey) (s0 : State) (bc0 : BlockchainRec)
    (hbc : parseBlockchain (s0 bK) = .ok bc0) (hv : bc0.version = 1)
    (h0 : bc0.validators = 0)
    (hok : (registerSeq chain pk bK payerK keys s0).isOk = true) :
    (∀ i (hi : i < keys.length), ∃ cs, chain_id_to_str chain = .ok cs ∧
       keys.get ⟨i, hi⟩ = .createdWithSeed scAuthK (validatorSeed cs i) scPid) ∧
    (∃ bcN, parseBlockchain ((registerSeq chain pk bK payerK keys s0).stateOf bK) = .ok bcN ∧
       bcN.version = 1 ∧ bcN.validators = keys.length) ∧
    (∀ (s : State) (bc : BlockchainRec) (vK : Pubkey),
       parseBlockchain (s bK) = .ok bc → bc.version ≠ 1 →
       addValidatorCall chain pk bK vK payerK s = .fail .uninitializedAccount s) := by
  cases hrun : registerSeq chain pk bK payerK keys s0 with
  | fail e sF =>
    rw [hrun] at hok
    exact absurd hok (by simp [RunRes.isOk])
  | ok sN =>
    obtain ⟨hkeys, hfinal⟩ := registerSeq_inv hbc hv hrun
    refine ⟨?_, ?_, ?_⟩
    · intro i hi
      obtain ⟨cs, hcs, hkey⟩ := hkeys i hi
      rw [h0] at hkey
      exact ⟨cs, hcs, by simpa using hkey⟩
    · exact ⟨{ bc0 with validators := bc0.validators + keys.length }, hfinal, hv, by simp [h0]⟩
    · intro s bc vK hb hnv
      unfold addValidatorCall processAddValidator
      simp +decide only [List.length_cons, List.length_nil, List.getD, List.get?,
        Option.getD, hb, PROGRAM_VERSION, reduceIte, ne_eq, hnv, not_false_iff,
        decide_eq_true_eq]

/-- Fresh Blockchain record and state for the C5 witness. -/
def c5BK : Pubkey := scBlockchainK ethChars
def c5Bc0 : BlockchainRec := BlockchainRec.new scBridgeK ethBytes scContract
def c5State : State :=
  updateState (updateState emptyState
    c5BK { lamports := 85, dlen := 85, val := .blockchain c5Bc0, owner := scPid })
    scPayer0 scWallet
def c5Keys : List Pubkey :=
  [.createdWithSeed scAuthK (validatorSeed ethChars 0) scPid,
   .createdWithSeed scAuthK (validatorSeed ethChars 1) scPid]

/-- Witness for C5: two sequential registrations on a fresh ETH
blockchain succeed at the derived addresses for indices 0 and 1 and end
with validators = 2. -/
theorem C5_validator_counter_address_coupling_witness :
    parseBlockchain (c5State c5BK) = .ok c5Bc0 ∧ c5Bc0.version = 1 ∧
    c5Bc0.validators = 0 ∧
    (registerSeq ethBytes (List.replicate 32 2) c5BK scPayer0 c5Keys c5State).isOk = true ∧
    (∃ bcN, parseBlockchain ((registerSeq ethBytes (List.replicate 32 2) c5BK scPayer0
        c5Keys c5State).stateOf c5BK) = .ok bcN ∧
      bcN.version = 1 ∧ bcN.validators = c5Keys.length) :=
  ⟨by decide, by decide, by decide, by decide,
    (C5_validator_counter_address_coupling ethBytes (List.replicate 32 2) c5BK scPayer0
      c5Keys c5State c5Bc0 (by decide) (by decide) (by decide) (by decide)).2.1⟩

/- ---------------------------------------------------------------------
C10: AddBlockchain consults no signer flag and never reads the Bridge
account's data.
--------------------------------------------------------------------- -/

/-- C10: process_add_blockchain consults no signer flag and never reads
the Bridge account's data.  First conjunct: flipping every account's
signer flag leaves the run literally unchanged (the flags are never
read, so the two runs are definitionally equal).  Second conjunct:
replacing the Bridge account (index 0) with an arbitrary account — in
particular an uninitialized or absent one — commutes with the whole
operation: the run on the modified state is the run on the original
state with the same bridge-account replacement applied to its final
state, so the outcome status and every effect on the other accounts are
identical.  Registering a blockchain therefore requires neither an
initialized Bridge nor the bridge owner's signature. -/
theorem C10_add_blockchain_ignores_signers_and_bridge_data
    (rent : Nat → Nat) (pid : Pubkey)
    (k0 k1 k2 k3 k4 : Pubkey) (b0 b1 b2 b3 b4 c0 c1 c2 c3 c4 : Bool)
    (bid ca : List Nat) (s : State) (a : Acct)
    (h1 : k1 ≠ k0) (h2 : k2 ≠ k0) :
    processAddBlockchain rent pid [(k0,b0),(k1,b1),(k2,b2),(k3,b3),(k4,b4)] bid ca s =
      processAddBlockchain rent pid [(k0,c0),(k1,c1),(k2,c2),(k3,c3),(k4,c4)] bid ca s ∧
    processAddBlockchain rent pid [(k0,b0),(k1,b1),(k2,b2),(k3,b3),(k4,b4)] bid ca
        (updateState s k0 a) =
      mapRunState (fun t => updateState t k0 a)
        (processAddBlockchain rent pid [(k0,b0),(k1,b1),(k2,b2),(k3,b3),(k4,b4)] bid ca s) := by
  constructor
  · rfl
  · unfold processAddBlockchain
    simp only [List.length_cons, List.length_nil, List.getD, List.get?, Option.getD,
      reduceIte, Nat.reduceAdd, Nat.reduceLT]
    cases hval : validate_bridge_authority pid k0 k3 with
    | error e => rfl
    | ok u =>
      cases hcs : check_and_get_blockchain_account_seed pid bid k3 k1 with
      | error e => rfl
      | ok seed =>
        unfold allocateAccount createWithSeed
        rw [updateState_other s k0 a k1 h1, updateState_other s k0 a k2 h2]
        simp only [Bind.bind, Except.bind]
        by_cases h32 : 32 < utf8Len seed
        · simp only [if_pos h32]
          rfl
        · simp only [if_neg h32]
          by_cases hkeq : k3.createdWithSeed seed pid = k1
          · simp only [if_neg (not_not_intro hkeq)]
            by_cases hocc : (s k1).lamports ≠ 0 ∨ (s k1).dlen ≠ 0 ∨
                (s k1).owner ≠ zeroPubkey
            · simp only [if_pos hocc]
              rfl
            · simp only [if_neg hocc]
              by_cases hfund : (s k2).lamports < rent BlockchainRec.LEN
              · simp only [if_pos hfund]
                rfl
              · simp only [if_neg hfund]
                dsimp only [storeAt, storeVal, mapRunState]
                simp only [updateState_same]
                simp only [if_neg (lt_irrefl BlockchainRec.LEN)]
                dsimp only [Bind.bind, Except.bind]
                simp only [updateState_squash]
                rw [updateState_comm h2, updateState_comm h1]
          · simp only [if_pos hkeq]
            rfl

/-- Witness for C10: concrete instantiation with the bridge account at
key 1, the blockchain account at key 5 and the payer at key 2; all
signer flags flipped between the two runs, and the bridge account
replaced by a funded wallet on an empty initial state. -/
theorem C10_add_blockchain_ignores_signers_and_bridge_data_witness :
    ((.key 5 : Pubkey) ≠ .key 1) ∧ ((.key 2 : Pubkey) ≠ .key 1) ∧
    (processAddBlockchain scRentFn scPid
        [(.key 1, true), (.key 5, true), (.key 2, true), (.key 6, true), (.key 7, true)]
        bscBytes scContract emptyState =
      processAddBlockchain scRentFn scPid
        [(.key 1, false), (.key 5, false), (.key 2, false), (.key 6, false), (.key 7, false)]
        bscBytes scContract emptyState ∧
     processAddBlockchain scRentFn scPid
        [(.key 1, true), (.key 5, true), (.key 2, true), (.key 6, true), (.key 7, true)]
        bscBytes scContract (updateState emptyState (.key 1) scWallet) =
      mapRunState (fun t => updateState t (.key 1) scWallet)
        (processAddBlockchain scRentFn scPid
          [(.key 1, true), (.key 5, true), (.key 2, true), (.key 6, true), (.key 7, true)]
          bscBytes scContract emptyState)) :=
  ⟨by decide, by decide,
   C10_add_blockchain_ignores_signers_and_bridge_data scRentFn scPid
     (.key 1) (.key 5) (.key 2) (.key 6) (.key 7)
     true true true true true false false false false false bscBytes scContract
     emptyState scWallet (by decide) (by decide)⟩

/- ---------------------------------------------------------------------
C9: the validator account's address is never re-derived or verified in
process_add_signature.
--------------------------------------------------------------------- -/

/-- Shared tail of process_add_signature from the lock-version check
onwards: its status is the same for any two validator keys, because the
validator key only enters the CONTENT of the stored Signature record,
never a check. -/
theorem sigTail_statusOf_validator_free (rent : Nat → Nat) (pid : Pubkey)
    (m0 m3 m4 m5 m12 : Pubkey) (sig src : List Nat) (lock_id : Nat)
    (va vb : Pubkey) (L : LockRec) (sC : State) :
    (if L.version ≠ PROGRAM_VERSION then RunRes.fail .uninitializedAccount sC
     else
     match check_and_get_signature_account_seed pid src lock_id L.signatures m5 m4 with
     | .error e => RunRes.fail e sC
     | .ok sigSeedText =>
       match allocateAccount rent pid sC m12 m4 m5 sigSeedText SignatureRec.LEN with
       | .error e => RunRes.fail e sC
       | .ok s9 =>
         match storeAt s9 m4 (.signature (SignatureRec.new L.signatures m0 sig va)) SignatureRec.LEN with
         | .error e => RunRes.fail e s9
         | .ok s10 =>
           match storeAt s10 m3 (.lock { L with signatures := L.signatures + 1 }) LockRec.LEN with
           | .error e => RunRes.fail e s10
           | .ok s11 => RunRes.ok s11).statusOf =
    (if L.version ≠ PROGRAM_VERSION then RunRes.fail .uninitializedAccount sC
     else
     match check_and_get_signature_account_seed pid src lock_id L.signatures m5 m4 with
     | .error e => RunRes.fail e sC
     | .ok sigSeedText =>
       match allocateAccount rent pid sC m12 m4 m5 sigSeedText SignatureRec.LEN with
       | .error e => RunRes.fail e sC
       | .ok s9 =>
         match storeAt s9 m4 (.signature (SignatureRec.new L.signatures m0 sig vb)) SignatureRec.LEN with
         | .error e => RunRes.fail e s9
         | .ok s10 =>
           match storeAt s10 m3 (.lock { L with signatures := L.signatures + 1 }) LockRec.LEN with
           | .error e => RunRes.fail e s10
           | .ok s11 => RunRes.ok s11).statusOf := by
  by_cases hlv : L.version ≠ PROGRAM_VERSION
  · simp only [if_pos hlv]
  · simp only [if_neg hlv]
    cases hss : check_and_get_signature_account_seed pid src lock_id L.signatures m5 m4 with
    | error e => rfl
    | ok sigSeedText =>
      dsimp only
      cases hal : allocateAccount rent pid sC m12 m4 m5 sigSeedText SignatureRec.LEN with
      | error e => rfl
      | ok s9 =>
        simp only [storeAt, storeVal, Bind.bind, Except.bind]
        by_cases hd1 : (s9 m4).dlen < SignatureRec.LEN
        · simp only [if_pos hd1]
        · simp only [if_neg hd1]
          rw [show (updateState s9 m4
                { s9 m4 with val := Val.signature (SignatureRec.new L.signatures m0 sig va) } m3).dlen
              = (updateState s9 m4
                { s9 m4 with val := Val.signature (SignatureRec.new L.signatures m0 sig vb) } m3).dlen from by
            unfold updateState
            by_cases h : m3 = m4 <;> simp [h]]
          by_cases hd2 : (updateState s9 m4
              { s9 m4 with val := Val.signature (SignatureRec.new L.signatures m0 sig vb) } m3).dlen < LockRec.LEN
          · simp only [if_pos hd2]
            rfl
          · simp only [if_neg hd2]
            rfl

/-- C9: process_add_signature never re-derives or verifies the validator
account's address: acceptance depends only on the account's deserialized
contents.  First conjunct: for any two calls identical except for the
validator account's address (index 2 of the account list), where the two
addresses hold the same account contents, the outcome status is
identical.  Remaining conjuncts: some input succeeds with a validator
account at a raw key (key 10) that is NOT the derived validator address
of any (chain text, index) slot, so the accepted validator account need
not be any registered validator slot. -/
theorem C9_validator_address_never_verified (rent : Nat → Nat) (pid : Pubkey)
    (m0 m1 m3 m4 m5 m6 m7 m8 m9 m10 m11 m12 m13 : Pubkey × Bool)
    (va vb : Pubkey) (bv : Bool)
    (sig tsrc tsaddr src txid : List Nat) (lock_id : Nat)
    (dst snd rcp : List Nat) (amount : Nat) (s : State)
    (hsv : s va = s vb) :
    ((processAddSignature rent pid
        [m0, m1, (va, bv), m3, m4, m5, m6, m7, m8, m9, m10, m11, m12, m13]
        sig tsrc tsaddr src txid lock_id dst snd rcp amount s).statusOf =
      (processAddSignature rent pid
        [m0, m1, (vb, bv), m3, m4, m5, m6, m7, m8, m9, m10, m11, m12, m13]
        sig tsrc tsaddr src txid lock_id dst snd rcp amount s).statusOf) ∧
    (scRun1 bscBytes bscChars scTxId).isOk = true ∧
    scValidator0K = .key 10 ∧
    (∀ (cs : List Char) (i : Nat),
      scValidator0K ≠ .createdWithSeed scAuthK (validatorSeed cs i) scPid) := by
  refine ⟨?_, by decide, rfl, fun cs i => key_ne_createdWithSeed 10 scAuthK (validatorSeed cs i) scPid⟩
  unfold processAddSignature
  simp only [List.length_cons, List.length_nil, List.getD, List.get?, Option.getD,
    reduceIte, Nat.reduceAdd, Nat.reduceLT]
  rw [hsv]
  by_cases hsg : m12.2 = true
  · simp only [if_neg (not_not_intro hsg)]
    cases hb : parseBridge (s m0.1) with
    | error e => rfl
    | ok bridgeData =>
      by_cases hbv : bridgeData.version ≠ PROGRAM_VERSION
      · simp only [if_pos hbv]
      · simp only [if_neg hbv]
        cases hbc : parseBlockchain (s m1.1) with
        | error e => rfl
        | ok blockchainData =>
          by_cases hcv : blockchainData.version ≠ PROGRAM_VERSION
          · simp only [if_pos hcv]
          · simp only [if_neg hcv]
            cases hv : parseValidator (s vb) with
            | error e => rfl
            | ok validatorData =>
              by_cases hvv : validatorData.version ≠ PROGRAM_VERSION
              · simp only [if_pos hvv]
              · simp only [if_neg hvv]
                by_cases hvo : validatorData.owner ≠ m12.1
                · simp only [if_pos hvo]
                · simp only [if_neg hvo]
                  by_cases hvb : validatorData.blockchain_id ≠ src
                  · simp only [if_pos hvb]
                  · simp only [if_neg hvb]
                    cases hva : validate_bridge_authority pid m0.1 m5.1 with
                    | error e => rfl
                    | ok u =>
                      cases hls : check_and_get_lock_account_seed pid src txid m5.1 m3.1 with
                      | error e => rfl
                      | ok lockSeedText =>
                        by_cases hemp : dataIsEmpty (s m3.1) = true
                        · simp only [if_pos hemp, Bind.bind, Except.bind]
                          cases ha1 : liftE s (allocateAccount rent pid s m12.1 m3.1 m5.1 lockSeedText LockRec.LEN) with
                          | error e => rfl
                          | ok s1 =>
                            dsimp only
                            cases ha2 : liftE s1 (storeAt s1 m1.1 (.blockchain { blockchainData with locks := blockchainData.locks + 1 }) BlockchainRec.LEN) with
                            | error e => rfl
                            | ok s2 =>
                              dsimp only
                              cases hu1 : get_or_create_user_data rent pid src snd m7.1 m6.1 m12.1 s2 with
                              | error e => rfl
                              | ok us =>
                                dsimp only
                                cases hu2 : get_or_create_user_data rent pid dst rcp m9.1 m8.1 m12.1 us.2 with
                                | error e => rfl
                                | ok ur =>
                                  dsimp only
                                  cases h5 : create_sent_lock_account rent pid src m12.1 m10.1 m7.1 snd us.1.sent txid ur.2 with
                                  | error e => rfl
                                  | ok s5 =>
                                    dsimp only
                                    cases h6 : create_received_lock_account rent pid dst m12.1 m11.1 m9.1 rcp ur.1.received txid s5 with
                                    | error e => rfl
                                    | ok s6 =>
                                      dsimp only
                                      cases h7 : liftE s6 (storeAt s6 m6.1 (.user { us.1 with sent := us.1.sent + 1 }) UserRec.LEN) with
                                      | error e => rfl
                                      | ok s7 =>
                                        dsimp only
                                        cases h8 : liftE s7 (storeAt s7 m8.1 (.user { ur.1 with received := ur.1.received + 1 }) UserRec.LEN) with
                                        | error e => rfl
                                        | ok s8 =>
                                          dsimp only
                                          generalize LockRec.new blockchainData.locks lock_id txid m0.1 tsaddr tsrc src snd rcp dst amount = L
                                          exact sigTail_statusOf_validator_free rent pid m0.1 m3.1 m4.1 m5.1 m12.1 sig src lock_id va vb L s8
                        · simp only [if_neg hemp, Bind.bind, Except.bind]
                          cases hpl : liftE s (parseLock (s m3.1)) with
                          | error e => rfl
                          | ok l =>
                            dsimp only
                            exact sigTail_statusOf_validator_free rent pid m0.1 m3.1 m4.1 m5.1 m12.1 sig src lock_id va vb l s
  · simp only [if_pos hsg]

/-- Witness for C9: concrete instantiation on the empty state (where any
two keys hold the same, empty, account) with validator addresses key 1
and key 2. -/
theorem C9_validator_address_never_verified_witness :
    emptyState (.key 1) = emptyState (.key 2) ∧
    (((processAddSignature scRentFn scPid
        [(.key 20, false), (.key 21, false), (.key 1, false), (.key 23, false),
         (.key 24, false), (.key 25, false), (.key 26, false), (.key 27, false),
         (.key 28, false), (.key 29, false), (.key 30, false), (.key 31, false),
         (.key 32, true), (.key 33, false)]
        scSigBytes bscBytes scTokenAddr bscBytes scTxId 1 bscBytes scSender scRecip 10000
        emptyState).statusOf =
      (processAddSignature scRentFn scPid
        [(.key 20, false), (.key 21, false), (.key 2, false), (.key 23, false),
         (.key 24, false), (.key 25, false), (.key 26, false), (.key 27, false),
         (.key 28, false), (.key 29, false), (.key 30, false), (.key 31, false),
         (.key 32, true), (.key 33, false)]
        scSigBytes bscBytes scTokenAddr bscBytes scTxId 1 bscBytes scSender scRecip 10000
        emptyState).statusOf) ∧
    (scRun1 bscBytes bscChars scTxId).isOk = true ∧
    scValidator0K = .key 10 ∧
    (∀ (cs : List Char) (i : Nat),
      scValidator0K ≠ .createdWithSeed scAuthK (validatorSeed cs i) scPid)) :=
  ⟨rfl, C9_validator_address_never_verified scRentFn scPid
    (.key 20, false) (.key 21, false) (.key 23, false) (.key 24, false) (.key 25, false)
    (.key 26, false) (.key 27, false) (.key 28, false) (.key 29, false) (.key 30, false)
    (.key 31, false) (.key 32, true) (.key 33, false)
    (.key 1) (.key 2) false
    scSigBytes bscBytes scTokenAddr bscBytes scTxId 1 bscBytes scSender scRecip 10000
    emptyState rfl⟩

/- ---------------------------------------------------------------------
C6: the chain id codec round trip.
--------------------------------------------------------------------- -/

theorem utf8DecodeOne_one {b : Nat} (r : List Nat) (h : b < 0x80) :
    utf8DecodeOne (b :: r) = some (Char.ofNat b, r) := by
  simp only [utf8DecodeOne]
  rw [if_pos h]

theorem utf8DecodeOne_two {b b1 : Nat} (r : List Nat)
    (h : 0xC2 ≤ b ∧ b < 0xE0) (h1 : 0x80 ≤ b1 ∧ b1 < 0xC0) :
    utf8DecodeOne (b :: b1 :: r) = some (Char.ofNat ((b - 0xC0) * 64 + (b1 - 0x80)), r) := by
  simp only [utf8DecodeOne]
  rw [if_neg (by omega), if_neg (by omega), if_pos (by omega), if_pos h1]

theorem utf8DecodeOne_three {b b1 b2 : Nat} (r : List Nat)
    (h : 0xE0 ≤ b ∧ b < 0xF0) (h1 : 0x80 ≤ b1 ∧ b1 < 0xC0) (h2 : 0x80 ≤ b2 ∧ b2 < 0xC0)
    (hcp : 0x800 ≤ (b - 0xE0) * 4096 + (b1 - 0x80) * 64 + (b2 - 0x80))
    (hsur : ¬ (0xD800 ≤ (b - 0xE0) * 4096 + (b1 - 0x80) * 64 + (b2 - 0x80) ∧
        (b - 0xE0) * 4096 + (b1 - 0x80) * 64 + (b2 - 0x80) < 0xE000)) :
    utf8DecodeOne (b :: b1 :: b2 :: r) =
      some (Char.ofNat ((b - 0xE0) * 4096 + (b1 - 0x80) * 64 + (b2 - 0x80)), r) := by
  simp only [utf8DecodeOne]
  rw [if_neg (by omega), if_neg (by omega), if_neg (by omega), if_pos (by omega),
    if_pos ⟨h1.1, h1.2, h2.1, h2.2, hcp, hsur⟩]

theorem utf8DecodeOne_four {b b1 b2 b3 : Nat} (r : List Nat)
    (h : 0xF0 ≤ b ∧ b < 0xF5) (h1 : 0x80 ≤ b1 ∧ b1 < 0xC0) (h2 : 0x80 ≤ b2 ∧ b2 < 0xC0)
    (h3 : 0x80 ≤ b3 ∧ b3 < 0xC0)
    (hcp : 0x10000 ≤ (b - 0xF0) * 262144 + (b1 - 0x80) * 4096 + (b2 - 0x80) * 64 + (b3 - 0x80))
    (hcp2 : (b - 0xF0) * 262144 + (b1 - 0x80) * 4096 + (b2 - 0x80) * 64 + (b3 - 0x80) < 0x110000) :
    utf8DecodeOne (b :: b1 :: b2 :: b3 :: r) =
      some (Char.ofNat ((b - 0xF0) * 262144 + (b1 - 0x80) * 4096 + (b2 - 0x80) * 64 + (b3 - 0x80)), r) := by
  simp only [utf8DecodeOne]
  rw [if_neg (by omega), if_neg (by omega), if_neg (by omega), if_neg (by omega),
    if_pos (by omega), if_pos ⟨h1.1, h1.2, h2.1, h2.2, h3.1, h3.2, hcp, hcp2⟩]

/-- Decoding the UTF-8 encoding of one character from the front of a byte
list gives that character back: the encoder only produces well-formed,
shortest-form sequences of valid scalar values. -/
theorem utf8DecodeOne_encode (c : Char) (r : List Nat) :
    utf8DecodeOne (utf8EncodeChar c ++ r) = some (c, r) := by
  have hval : Nat.isValidChar c.toNat := c.valid
  have hlt : c.toNat < 1114112 := by
    rcases hval with h | ⟨h1, h2⟩ <;> omega
  by_cases h1 : c.toNat < 0x80
  · have he : utf8EncodeChar c = [c.toNat] := by
      unfold utf8EncodeChar
      rw [if_pos h1]
    rw [he, List.cons_append, List.nil_append, utf8DecodeOne_one r h1, Char.ofNat_toNat]
  · by_cases h2 : c.toNat < 0x800
    · have he : utf8EncodeChar c = [0xC0 + c.toNat / 64, 0x80 + c.toNat % 64] := by
        unfold utf8EncodeChar
        rw [if_neg h1, if_pos h2]
      rw [he, List.cons_append, List.cons_append, List.nil_append,
        utf8DecodeOne_two r (by omega) (by omega)]
      rw [show (0xC0 + c.toNat / 64 - 0xC0) * 64 + (0x80 + c.toNat % 64 - 0x80) = c.toNat by omega,
        Char.ofNat_toNat]
    · by_cases h3 : c.toNat < 0x10000
      · have he : utf8EncodeChar c =
            [0xE0 + c.toNat / 4096, 0x80 + c.toNat / 64 % 64, 0x80 + c.toNat % 64] := by
          unfold utf8EncodeChar
          rw [if_neg h1, if_neg h2, if_pos h3]
        rw [he, List.cons_append, List.cons_append, List.cons_append, List.nil_append,
          utf8DecodeOne_three r (by omega) (by omega) (by omega) (by omega)
            (by rcases hval with hq | ⟨hq1, hq2⟩ <;> omega)]
        rw [show (0xE0 + c.toNat / 4096 - 0xE0) * 4096 + (0x80 + c.toNat / 64 % 64 - 0x80) * 64 +
            (0x80 + c.toNat % 64 - 0x80) = c.toNat by omega, Char.ofNat_toNat]
      · have he : utf8EncodeChar c =
            [0xF0 + c.toNat / 262144, 0x80 + c.toNat / 4096 % 64,
             0x80 + c.toNat / 64 % 64, 0x80 + c.toNat % 64] := by
          unfold utf8EncodeChar
          rw [if_neg h1, if_neg h2, if_neg h3]
        rw [he, List.cons_append, List.cons_append, List.cons_append, List.cons_append,
          List.nil_append,
          utf8DecodeOne_four r (by omega) (by omega) (by omega) (by omega) (by omega) (by omega)]
        rw [show (0xF0 + c.toNat / 262144 - 0xF0) * 262144 + (0x80 + c.toNat / 4096 % 64 - 0x80) * 4096 +
            (0x80 + c.toNat / 64 % 64 - 0x80) * 64 + (0x80 + c.toNat % 64 - 0x80) = c.toNat by omega,
          Char.ofNat_toNat]

theorem utf8EncodeChar_ne_nil (c : Char) : utf8EncodeChar c ≠ [] := by
  unfold utf8EncodeChar
  dsimp only
  split
  · simp
  · split
    · simp
    · split <;> simp

/-- Decoding an encoded character list followed by any tail splits off the
character list. -/
theorem utf8Decode_encode_append (x : List Char) : ∀ (r : List Nat),
    utf8Decode (utf8EncodeList x ++ r) = (utf8Decode r).map (x ++ ·) := by
  induction x with
  | nil =>
    intro r
    simp only [utf8EncodeList, List.flatMap_nil, List.nil_append]
    cases utf8Decode r <;> simp
  | cons c t ih =>
    intro r
    have hdec := utf8DecodeOne_encode c (utf8EncodeList t ++ r)
    have henc : utf8EncodeList (c :: t) ++ r = utf8EncodeChar c ++ (utf8EncodeList t ++ r) := by
      simp [utf8EncodeList, List.flatMap_cons, List.append_assoc]
    rw [henc]
    cases hc : utf8EncodeChar c with
    | nil => exact absurd hc (utf8EncodeChar_ne_nil c)
    | cons b bs =>
      rw [hc] at hdec
      rw [List.cons_append] at hdec ⊢
      rw [utf8Decode_cons hdec, ih r]
      cases utf8Decode r <;> simp

/-- Zero padding decodes to NUL characters. -/
theorem utf8Decode_replicate_zero (k : Nat) :
    utf8Decode (List.replicate k 0) = some (List.replicate k nulChar) := by
  induction k with
  | zero => rfl
  | succ n ih =>
    rw [List.replicate_succ,
      utf8Decode_cons (utf8DecodeOne_one (List.replicate n 0) (by omega)), ih]
    simp [nulChar, List.replicate_succ]

theorem dropWhile_nul_replicate_append (k : Nat) (m : List Char) :
    (List.replicate k nulChar ++ m).dropWhile (· = nulChar) = m.dropWhile (· = nulChar) := by
  induction k with
  | zero => simp
  | succ n ih => simp [List.replicate_succ, List.dropWhile_cons, ih]

/-- trim_matches of NUL removes exactly the zero padding when the text
itself neither starts nor ends with NUL. -/
theorem trimNul_append_replicate (x : List Char) (k : Nat)
    (hh : x.head? ≠ some nulChar) (hl : x.getLast? ≠ some nulChar) :
    trimNul (x ++ List.replicate k nulChar) = x := by
  cases x with
  | nil =>
    simp only [List.nil_append]
    unfold trimNul dropNul
    rw [show List.replicate k nulChar = List.replicate k nulChar ++ ([] : List Char) by simp,
      dropWhile_nul_replicate_append]
    simp
  | cons c t =>
    have hc : c ≠ nulChar := by
      intro h
      exact hh (by simp [h])
    unfold trimNul dropNul
    rw [List.cons_append, List.dropWhile_cons, if_neg (by simp [hc]),
      ← List.cons_append, List.reverse_append, List.reverse_replicate,
      dropWhile_nul_replicate_append]
    cases hrev : (c :: t).reverse with
    | nil => simp at hrev
    | cons d t2 =>
      have hlast : (c :: t).getLast? = some d := by
        rw [← List.head?_reverse, hrev]
        rfl
      have hd : d ≠ nulChar := by
        intro he
        exact hl (by rw [hlast, he])
      rw [List.dropWhile_cons, if_neg (by simp [hd]), ← hrev, List.reverse_reverse]

/-- C6 counterexample: the round trip decode(encode(x)) = x FAILS for
valid UTF-8 texts of length at most 4 bytes that end -- or, because
trim_matches strips BOTH ends, begin -- with a NUL character: the NUL is
absorbed into (or trimmed like) the zero padding. -/
theorem C6_cex_nul_text_not_roundtripped :
    str_to_chain_id ['a', nulChar] = some [97, 0, 0, 0] ∧
    chain_id_to_str [97, 0, 0, 0] = .ok ['a'] ∧
    (['a'] : List Char) ≠ ['a', nulChar] ∧
    str_to_chain_id [nulChar, 'a'] = some [0, 97, 0, 0] ∧
    chain_id_to_str [0, 97, 0, 0] = .ok ['a'] ∧
    (['a'] : List Char) ≠ [nulChar, 'a'] := by decide

/-- C6: the codec round trip decode(encode(x)) = x holds for every text x
(of at most 4 UTF-8 bytes, i.e. whenever the encoder succeeds) that
neither begins nor ends with a NUL character; the two NUL side
conditions are necessary by C6_cex_nul_text_not_roundtripped, because
chain_id_to_str trims NUL from both ends and trailing NUL is
indistinguishable from the zero padding. -/
theorem C6_roundtrip_nonnul_text (x : List Char) (bs : List Nat)
    (hh : x.head? ≠ some nulChar) (hl : x.getLast? ≠ some nulChar)
    (henc : str_to_chain_id x = some bs) :
    chain_id_to_str bs = .ok x := by
  unfold str_to_chain_id at henc
  dsimp only at henc
  split at henc
  · injection henc with hbs
    subst hbs
    unfold chain_id_to_str
    rw [utf8Decode_encode_append, utf8Decode_replicate_zero]
    dsimp only [Option.map]
    rw [trimNul_append_replicate x _ hh hl]
  · exact absurd henc (by simp)

/-- Witness for C6: the three byte text BSC encodes to [66, 83, 67, 0]
and decodes back to BSC. -/
theorem C6_roundtrip_nonnul_text_witness :
    (['B', 'S', 'C'].head? ≠ some nulChar) ∧
    (['B', 'S', 'C'].getLast? ≠ some nulChar) ∧
    str_to_chain_id ['B', 'S', 'C'] = some [66, 83, 67, 0] ∧
    chain_id_to_str [66, 83, 67, 0] = .ok ['B', 'S', 'C'] :=
  ⟨by decide, by decide, by decide,
    C6_roundtrip_nonnul_text ['B', 'S', 'C'] [66, 83, 67, 0]
      (by decide) (by decide) (by decide)⟩
